import Mathlib

/-!
Verification of the knight-shift-ai engine core against its specification.

The development shallowly embeds the search-and-evaluation subsystem:

* `TranspositionTable` with `store`/`probe` (transposition_table.py);
* the alpha-beta engine family: Level3, Level4, Level5 and Ultimate
  (level3_engine.py, level4_engine.py, level5_engine.py, ultimate_engine.py),
  over an abstract game-tree model of the external `chess.Board` interface;
* the Monte Carlo tree search selection / rollout / leaf evaluation
  (mcts_engine.py, mcts_cnn_engine.py);
* the baseline static evaluator (base_engine.py) over a record of the
  position queries it consumes.

Modelling conventions, used throughout:

* The `chess.Board` position is external to the core (spec section 3:
  "Position (external, borrowed not owned)").  It is modelled as a finite
  game tree `GTree`; each node carries the answers of the position
  queries the search layer performs there (side-to-move static value,
  terminal flags, Zobrist hash, per-move attributes).  The borrowed,
  mutable board with its push/pop move stack is `EBoard`: a current node
  plus a stack of saved states; `pushB` descends into a child and saves
  the previous state, `popB` restores it, exactly the contract of
  `board.push`/`board.pop`.
* Wall-clock time checks are modelled by an oracle `Nat → Bool` read at an
  index that advances by one at every `is_time_exceeded` call.  A real
  execution corresponds to a monotone oracle (once true, always true).
* Python for-loops with break/early return are translated to structural
  recursion over the iterated list; recursion of the search functions is
  bounded by an explicit fuel argument (the source recursion is bounded by
  the finiteness of the game: fuel at least the tree height makes the
  sentinel branches unreachable).
* `random.choice` is modelled by a stream `Nat → Nat` of draws, and float
  arithmetic of the MCTS value head by exact rationals (reals where a
  square root occurs).
-/

/-! ## Transposition table (src/backend/app/engine/transposition_table.py) -/

/-- Entry in the transposition table (class TTEntry). -/
structure TTEntry where
  hash_key : Nat
  score : Int
  depth : Nat
  flag : Nat
  best_move : Option Nat := none
deriving DecidableEq, Repr

/-- TTEntry.EXACT -/
def TTEntry.EXACT : Nat := 0

/-- TTEntry.LOWER_BOUND -/
def TTEntry.LOWER_BOUND : Nat := 1

/-- TTEntry.UPPER_BOUND -/
def TTEntry.UPPER_BOUND : Nat := 2

/-- Hash table state: entry count `size`, the dict `table` (index to entry),
and the usage counters. -/
structure TranspositionTable where
  size : Nat
  table : Nat → Option TTEntry
  hits : Nat
  misses : Nat
  overwrites : Nat

/-- The `while self.size * 2 <= num_entries: self.size *= 2` loop of
`TranspositionTable.__init__`.  The guard `0 < size` records the invariant
of the only call site (`size` starts at 1) and makes the measure decrease. -/
def ttSizeLoop (num_entries : Int) (size : Nat) : Nat :=
  if h : 0 < size ∧ (size * 2 : Int) ≤ num_entries then
    ttSizeLoop num_entries (size * 2)
  else
    size
termination_by num_entries.toNat + 1 - size
decreasing_by
  obtain ⟨hp, hle⟩ := h
  omega

/-- `TranspositionTable.__init__(size_mb)`: `num_entries = (size_mb * 1024 *
1024) // entry_size` with Python floor division, the doubling loop from 1,
then `max(1024, size)`; the table starts empty with zeroed counters. -/
def TranspositionTable.init (size_mb : Int) : TranspositionTable :=
  let entry_size : Int := 24
  let num_entries : Int := Int.fdiv (size_mb * 1024 * 1024) entry_size
  let sz := ttSizeLoop num_entries 1
  { size := max 1024 sz
    table := fun _ => none
    hits := 0
    misses := 0
    overwrites := 0 }

/-- `TranspositionTable._index`: `hash_key & (self.size - 1)`. -/
def TranspositionTable.index (tt : TranspositionTable) (hash_key : Nat) : Nat :=
  hash_key &&& (tt.size - 1)

/-- `TranspositionTable.store(hash_key, score, depth, flag, best_move)`. -/
def TranspositionTable.store (tt : TranspositionTable) (hash_key : Nat)
    (score : Int) (depth : Nat) (flag : Nat) (best_move : Option Nat) :
    TranspositionTable :=
  let idx := tt.index hash_key
  match tt.table idx with
  | none =>
      { tt with table := fun i => if i = idx then some ⟨hash_key, score, depth, flag, best_move⟩ else tt.table i }
  | some existing =>
      if existing.hash_key = hash_key ∨ depth ≥ existing.depth then
        { tt with
          table := fun i => if i = idx then some ⟨hash_key, score, depth, flag, best_move⟩ else tt.table i
          overwrites := if existing.hash_key ≠ hash_key then tt.overwrites + 1 else tt.overwrites }
      else
        tt

/-- `TranspositionTable.probe(hash_key, depth, alpha, beta)`: the optional
`(score, flag)` result together with the table with updated counters. -/
def TranspositionTable.probe (tt : TranspositionTable) (hash_key : Nat)
    (depth : Nat) (alpha beta : Int) :
    Option (Int × Nat) × TranspositionTable :=
  let idx := tt.index hash_key
  match tt.table idx with
  | none => (none, { tt with misses := tt.misses + 1 })
  | some entry =>
      if entry.hash_key ≠ hash_key then
        (none, { tt with misses := tt.misses + 1 })
      else if entry.depth < depth then
        (none, { tt with misses := tt.misses + 1 })
      else
        let tt1 := { tt with hits := tt.hits + 1 }
        if entry.flag = TTEntry.EXACT then
          (some (entry.score, TTEntry.EXACT), tt1)
        else if entry.flag = TTEntry.LOWER_BOUND ∧ entry.score ≥ beta then
          (some (entry.score, TTEntry.LOWER_BOUND), tt1)
        else if entry.flag = TTEntry.UPPER_BOUND ∧ entry.score ≤ alpha then
          (some (entry.score, TTEntry.UPPER_BOUND), tt1)
        else
          (none, tt1)

/-- `TranspositionTable.clear()`. -/
def TranspositionTable.clear (tt : TranspositionTable) : TranspositionTable :=
  { tt with table := fun _ => none, hits := 0, misses := 0, overwrites := 0 }

/-! ## Abstract position model

`GMove` carries the per-move attributes the engines query on the parent
position (`board.is_capture`, `piece_type_at` of the captured and moving
piece translated to their `PIECE_VALUES`, `gives_check`, `move.promotion`,
en-passant status, pawn-ness of the mover and the target square).  `GTree`
is a node of the game tree: the answers of the position queries at that
node plus the legal moves with their successor positions.  The side-to-move
static value `val` abstracts the engine's quiet evaluator at that position
(the evaluator itself is verified separately over `EvalPos` below). -/

structure GMove where
  id : Nat
  isCapture : Bool := false
  isEnPassant : Bool := false
  captured : Option Int := none
  mover : Option Int := none
  promotion : Option Int := none
  givesCheck : Bool := false
  moverIsPawn : Bool := false
  toSquare : Nat := 0
deriving DecidableEq, Repr

inductive GTree where
  | node (val : Int) (hashv : Nat) (gameOver : Bool) (inCheck : Bool)
      (isCheckmate : Bool) (isStalemate : Bool) (isInsufficientMaterial : Bool)
      (canClaimThreefold : Bool) (canClaimFifty : Bool)
      (matW : Int) (matB : Int) (attackedW : Nat → Bool) (attackedB : Nat → Bool)
      (children : List (GMove × GTree))
deriving Inhabited

def GTree.val : GTree → Int
  | .node v _ _ _ _ _ _ _ _ _ _ _ _ _ => v

def GTree.hashv : GTree → Nat
  | .node _ h _ _ _ _ _ _ _ _ _ _ _ _ => h

def GTree.gameOver : GTree → Bool
  | .node _ _ g _ _ _ _ _ _ _ _ _ _ _ => g

def GTree.inCheck : GTree → Bool
  | .node _ _ _ c _ _ _ _ _ _ _ _ _ _ => c

def GTree.isCheckmate : GTree → Bool
  | .node _ _ _ _ c _ _ _ _ _ _ _ _ _ => c

def GTree.isStalemate : GTree → Bool
  | .node _ _ _ _ _ s _ _ _ _ _ _ _ _ => s

def GTree.isInsufficientMaterial : GTree → Bool
  | .node _ _ _ _ _ _ i _ _ _ _ _ _ _ => i

def GTree.canClaimThreefold : GTree → Bool
  | .node _ _ _ _ _ _ _ t _ _ _ _ _ _ => t

def GTree.canClaimFifty : GTree → Bool
  | .node _ _ _ _ _ _ _ _ f _ _ _ _ _ => f

def GTree.matW : GTree → Int
  | .node _ _ _ _ _ _ _ _ _ w _ _ _ _ => w

def GTree.matB : GTree → Int
  | .node _ _ _ _ _ _ _ _ _ _ b _ _ _ => b

def GTree.attackedW : GTree → (Nat → Bool)
  | .node _ _ _ _ _ _ _ _ _ _ _ a _ _ => a

def GTree.attackedB : GTree → (Nat → Bool)
  | .node _ _ _ _ _ _ _ _ _ _ _ _ a _ => a

def GTree.children : GTree → List (GMove × GTree)
  | .node _ _ _ _ _ _ _ _ _ _ _ _ _ c => c

/-- `board.is_attacked_by(color, square)` at a node (color true = white,
as in python-chess). -/
def GTree.attackedBy (t : GTree) (color : Bool) (sq : Nat) : Bool :=
  if color then t.attackedW sq else t.attackedB sq

/-- Successor position of a legal move (the current node when the move is
not in `children`; the engines only push moves obtained from
`board.legal_moves`, so that branch is never taken in any execution). -/
def GTree.childAfter (t : GTree) (m : GMove) : GTree :=
  match t.children.find? (fun p => p.1 = m) with
  | some p => p.2
  | none => t

/-- The borrowed mutable board: current position, side to move, and the
push/pop move stack, each stack frame saving the state `board.pop`
restores. -/
structure EBoard where
  cur : GTree
  turn : Bool
  stack : List (GTree × Bool)

/-- `board.push(move)`. -/
def pushB (m : GMove) (b : EBoard) : EBoard :=
  { cur := b.cur.childAfter m, turn := !b.turn, stack := (b.cur, b.turn) :: b.stack }

/-- `board.pop()` (identity on an empty stack, which no engine execution
reaches: every `pop` in the source follows a `push`). -/
def popB (b : EBoard) : EBoard :=
  match b.stack with
  | [] => b
  | (t, tn) :: rest => { cur := t, turn := tn, stack := rest }

/-- `board.legal_moves`. -/
def legalMovesE (b : EBoard) : List GMove :=
  b.cur.children.map Prod.fst

/-- The engine's quiet evaluator at the current position (abstracted as the
node's stored side-to-move value). -/
def evaluateE (b : EBoard) : Int :=
  b.cur.val

/-- `board.is_game_over()`. -/
def isGameOverE (b : EBoard) : Bool :=
  b.cur.gameOver

/-- `SearchResult` (base_engine.py); the optional diagnostics dict is
omitted. -/
structure SearchResultE where
  move : Option GMove
  score : Int
  depth : Nat
  nodes : Nat
deriving DecidableEq, Repr

/-- Stable descending sort by an integer key: the meaning of Python's
`sorted(moves, key=score, reverse=True)` (equal keys keep their original
relative order). `le a b` here means "a may stay in front of b". -/
def insertRev {α : Type} (score : α → Int) (a : α) : List α → List α
  | [] => [a]
  | b :: bs => if score b ≤ score a then a :: b :: bs else b :: insertRev score a bs

def sortRevBy {α : Type} (score : α → Int) : List α → List α
  | [] => []
  | a :: as => insertRev score a (sortRevBy score as)

/-- `PIECE_VALUES` (base_engine.py), keyed by the python-chess piece type
1..6. -/
def PIECE_VALUES : Nat → Int
  | 1 => 100
  | 2 => 320
  | 3 => 330
  | 4 => 500
  | 5 => 900
  | 6 => 20000
  | _ => 0

/-- `BaseEngine.order_moves` move score: MVV-LVA for captures with both
piece types present, otherwise a flat 500 for checks, else 0. -/
def baseMoveScore (m : GMove) : Int :=
  if m.isCapture then
    match m.captured, m.mover with
    | some c, some v => 10 * c - v
    | _, _ => if m.givesCheck then 500 else 0
  else if m.givesCheck then 500 else 0

/-- `BaseEngine.order_moves(board, moves)`. -/
def orderMovesBase (moves : List GMove) : List GMove :=
  sortRevBy baseMoveScore moves

/-- `evaluate_terminal_position(board)` (base_engine.py): checkmate is
-20000 for the mated mover; stalemate and claimable draws are material-signed
biased values; `none` on non-terminal positions.  The per-color material sums
are node attributes (`matW`, `matB`). -/
def evaluateTerminalPosition (b : EBoard) : Option Int :=
  if b.cur.isCheckmate then
    some (-20000)
  else if b.cur.isStalemate then
    let score := b.cur.matW - b.cur.matB
    let side_eval := if b.turn then score else -score
    let stalemate_bias : Int := if side_eval > 0 then 8000 else -500
    some (side_eval - stalemate_bias)
  else if b.cur.isInsufficientMaterial then
    some 0
  else if b.cur.canClaimThreefold ∨ b.cur.canClaimFifty then
    let score := b.cur.matW - b.cur.matB
    let side_eval := if b.turn then score else -score
    if side_eval > 200 then some (side_eval - 500)
    else if side_eval < -200 then some (side_eval + 500)
    else some 0
  else
    none

/-! ## Level3Engine (src/backend/app/engine/level3_engine.py)

Iterative deepening alpha-beta with basic quiescence.  State threading:
every function returns its value together with the board it leaves behind;
time checks read `oracle` at an index advanced per check; `nodes`
accumulates the `nodes[0]` counter. -/

namespace Level3

/-- The captures-only loop of `Level3Engine.quiescence`; `q` is the
recursive quiescence call at one less fuel. -/
def qloop (q : EBoard → Int → Int → Nat → Int × EBoard × Nat) :
    List GMove → EBoard → Int → Int → Nat → Int × EBoard × Nat
  | [], b, alpha, _, nodes => (alpha, b, nodes)
  | m :: ms, b, alpha, beta, nodes =>
    if !m.isCapture then
      qloop q ms b alpha beta nodes
    else
      let b1 := pushB m b
      let r := q b1 (-beta) (-alpha) nodes
      let score := -r.1
      let b2 := popB r.2.1
      if score ≥ beta then (beta, b2, r.2.2)
      else
        let alpha1 := if alpha < score then score else alpha
        qloop q ms b2 alpha1 beta r.2.2

/-- `Level3Engine.quiescence(board, alpha, beta, nodes)`. -/
def quiescence : Nat → EBoard → Int → Int → Nat → Int × EBoard × Nat
  | 0, b, alpha, _, nodes => (alpha, b, nodes)
  | fuel + 1, b, alpha, beta, nodes =>
    let stand_pat := evaluateE b
    let nodes1 := nodes + 1
    if stand_pat ≥ beta then (beta, b, nodes1)
    else
      let alpha1 := if alpha < stand_pat then stand_pat else alpha
      qloop (quiescence fuel) (orderMovesBase (legalMovesE b)) b alpha1 beta nodes1

/-- The move loop of `Level3Engine.alphabeta`; `rec` is the recursive
alphabeta call at depth - 1; returns `(alpha, board, time index, nodes)`. -/
def abloop (oracle : Nat → Bool)
    (rec : EBoard → Int → Int → Nat → Nat → Int × EBoard × Nat × Nat) :
    List GMove → EBoard → Int → Int → Nat → Nat → Int × EBoard × Nat × Nat
  | [], b, alpha, _, tIdx, nodes => (alpha, b, tIdx, nodes)
  | m :: ms, b, alpha, beta, tIdx, nodes =>
    if oracle tIdx then (alpha, b, tIdx + 1, nodes)
    else
      let b1 := pushB m b
      let r := rec b1 (-beta) (-alpha) (tIdx + 1) nodes
      let score := -r.1
      let b2 := popB r.2.1
      let alpha1 := if alpha < score then score else alpha
      if alpha1 ≥ beta then (alpha1, b2, r.2.2.1, r.2.2.2)
      else abloop oracle rec ms b2 alpha1 beta r.2.2.1 r.2.2.2

/-- `Level3Engine.alphabeta(board, depth, alpha, beta, start, time_limit,
nodes)`. -/
def alphabeta (oracle : Nat → Bool) :
    Nat → EBoard → Nat → Int → Int → Nat → Nat → Int × EBoard × Nat × Nat
  | 0, b, _, alpha, _, tIdx, nodes => (alpha, b, tIdx, nodes)
  | fuel + 1, b, depth, alpha, beta, tIdx, nodes =>
    if depth = 0 ∨ isGameOverE b then
      let r := quiescence (fuel + 1) b alpha beta nodes
      (r.1, r.2.1, tIdx, r.2.2)
    else
      let moves := orderMovesBase (legalMovesE b)
      let r := abloop oracle
        (fun b1 a1 b2 t n => alphabeta oracle fuel b1 (depth - 1) a1 b2 t n)
        moves b alpha beta tIdx nodes
      (r.1, r.2.1, r.2.2.1, r.2.2.2 + 1)

/-- The root-move loop of one iterative-deepening iteration of
`Level3Engine.choose_move`: running `(iteration_best_move,
iteration_best_score)`, returning it with the board, time index and
accumulated total node count. -/
def rootLoop (oracle : Nat → Bool) (fuel : Nat) (depth : Nat) :
    List GMove → (Option GMove × Int) → EBoard → Nat → Nat →
    (Option GMove × Int) × EBoard × Nat × Nat
  | [], best, b, tIdx, totalNodes => (best, b, tIdx, totalNodes)
  | m :: ms, best, b, tIdx, totalNodes =>
    if oracle tIdx then (best, b, tIdx + 1, totalNodes)
    else
      let b1 := pushB m b
      let r := alphabeta oracle fuel b1 (depth - 1) (-1000000) 1000000 (tIdx + 1) 0
      let score := -r.1
      let b2 := popB r.2.1
      let best1 := if score > best.2 then (some m, score) else best
      rootLoop oracle fuel depth ms best1 b2 r.2.2.1 (totalNodes + r.2.2.2)

/-- Running state of the iterative-deepening loop of
`Level3Engine.choose_move`. -/
structure IterState where
  bestMove : Option GMove
  bestScore : Int
  searchedDepth : Nat
  totalNodes : Nat
  tIdx : Nat
  board : EBoard

/-- The `for depth in range(1, max_depth + 1)` loop of
`Level3Engine.choose_move`: time check, one root iteration, and the commit
of the iteration result when `iteration_best_move` is non-None. -/
def depthLoop (oracle : Nat → Bool) (fuel : Nat) (ordered : List GMove) :
    List Nat → IterState → IterState
  | [], st => st
  | d :: rest, st =>
    if oracle st.tIdx then { st with tIdx := st.tIdx + 1 }
    else
      let r := rootLoop oracle fuel d ordered (st.bestMove, -10000000)
        st.board (st.tIdx + 1) st.totalNodes
      let st1 : IterState :=
        match r.1.1 with
        | some m =>
            { bestMove := some m, bestScore := r.1.2, searchedDepth := d,
              totalNodes := r.2.2.2, tIdx := r.2.2.1, board := r.2.1 }
        | none =>
            { st with totalNodes := r.2.2.2, tIdx := r.2.2.1, board := r.2.1 }
      depthLoop oracle fuel ordered rest st1

/-- `Level3Engine.choose_move(board, time_limit)` (max_depth = 4), returning
the `SearchResult` and the board left behind. -/
def chooseMove (oracle : Nat → Bool) (fuel : Nat) (b : EBoard) :
    SearchResultE × EBoard :=
  let ordered := orderMovesBase (legalMovesE b)
  let st := depthLoop oracle fuel ordered [1, 2, 3, 4]
    ⟨none, -10000000, 0, 0, 0, b⟩
  (⟨st.bestMove, st.bestScore, st.searchedDepth, st.totalNodes⟩, st.board)

end Level3

/-! ## Level5Engine (src/backend/app/engine/level5_engine.py)

Fixed-depth alpha-beta, no time checks; `alphabeta` returns
`(score, nodes)` and the board left behind. -/

namespace Level5

/-- The move loop of `Level5Engine.alphabeta`; state
`(best, alpha, nodes, board)`. -/
def abloop (rec : EBoard → Int → Int → (Int × Nat) × EBoard) :
    List GMove → EBoard → Int → Int → Int → Nat → (Int × Nat) × EBoard
  | [], b, best, _, _, nodes => ((best, nodes), b)
  | m :: ms, b, best, alpha, beta, nodes =>
    let b1 := pushB m b
    let r := rec b1 (-beta) (-alpha)
    let b2 := popB r.2
    let nodes1 := nodes + r.1.2 + 1
    let score := -r.1.1
    let best1 := if score > best then score else best
    let alpha1 := if best1 > alpha then best1 else alpha
    if alpha1 ≥ beta then ((best1, nodes1), b2)
    else abloop rec ms b2 best1 alpha1 beta nodes1

/-- `Level5Engine.alphabeta(board, depth, alpha, beta)`. -/
def alphabeta : Nat → EBoard → Nat → Int → Int → (Int × Nat) × EBoard
  | 0, b, _, _, _ => ((evaluateE b, 1), b)
  | fuel + 1, b, depth, alpha, beta =>
    if depth = 0 ∨ isGameOverE b then ((evaluateE b, 1), b)
    else
      abloop (fun b1 a1 b2 => alphabeta fuel b1 (depth - 1) a1 b2)
        (orderMovesBase (legalMovesE b)) b (-10000000) alpha beta 0

/-- The root loop of `Level5Engine.choose_move`; state
`(best_move, best_score, total_nodes, board)`. -/
def rootLoop (fuel : Nat) (depth : Nat) :
    List GMove → Option GMove → Int → Nat → EBoard →
    (Option GMove × Int × Nat) × EBoard
  | [], bm, bs, tn, b => ((bm, bs, tn), b)
  | m :: ms, bm, bs, tn, b =>
    let b1 := pushB m b
    let r := alphabeta fuel b1 (depth - 1) (-1000000) 1000000
    let b2 := popB r.2
    let tn1 := tn + r.1.2 + 1
    let score := -r.1.1
    if score > bs then rootLoop fuel depth ms (some m) score tn1 b2
    else rootLoop fuel depth ms bm bs tn1 b2

/-- `Level5Engine.choose_move(board, time_limit)` (fixed depth 3). -/
def chooseMove (fuel : Nat) (b : EBoard) : SearchResultE × EBoard :=
  let depth := 3
  let r := rootLoop fuel depth (orderMovesBase (legalMovesE b))
    none (-10000000) 0 b
  (⟨r.1.1, r.1.2.1, depth, r.1.2.2⟩, r.2)

end Level5

/-! ## Level1Engine (src/.history/submit/backend/app/engine/level1_engine.py)

The one-ply greedy tier.  `level1_engine.py` is imported by
registry.py but the snapshot carries its source only as the editor-history
copy; the translation follows that file (it also matches the spec's "one
tier performs no search: one-ply greedy scan by post-move evaluation"). -/

namespace Level1

/-- The move loop of `Level1Engine.choose_move`: push, score the resulting
position (terminal evaluation first, else the negated quiet evaluation),
pop, keep the best. -/
def rootLoop : List GMove → Option GMove → Int → Nat → EBoard →
    (Option GMove × Int × Nat) × EBoard
  | [], bm, bs, tn, b => ((bm, bs, tn), b)
  | m :: ms, bm, bs, tn, b =>
    let b1 := pushB m b
    let score :=
      match evaluateTerminalPosition b1 with
      | some t => -t
      | none => -(evaluateE b1)
    let b2 := popB b1
    let tn1 := tn + 1
    if score > bs then rootLoop ms (some m) score tn1 b2
    else rootLoop ms bm bs tn1 b2

/-- `Level1Engine.choose_move(board, time_limit)`. -/
def chooseMove (b : EBoard) : SearchResultE × EBoard :=
  if legalMovesE b = [] then (⟨none, 0, 1, 0⟩, b)
  else
    let r := rootLoop (legalMovesE b) none (-10000000) 0 b
    (⟨r.1.1, r.1.2.1, 1, r.1.2.2⟩, r.2)

end Level1

/-! ## Level2Engine (src/backend/app/engine/level2_engine.py)

Shallow minimax without alpha-beta, material-only evaluation with the
repetition penalty, and random tie-breaking among the top 3 root moves.
`evaluate_material` and `repetition_penalty` are pure functions of the
position; the search layer takes them as per-position functions `evalMat`
and `repPen` on game-tree nodes (the full embedding of
`repetition_penalty` over the position record appears with the evaluator). -/

namespace Level2

/-- The move loop of `Level2Engine.minimax`; `rec` is the recursive call at
depth - 1.  No pruning: every legal move is searched. -/
def mmloop (rec : EBoard → (Int × Nat) × EBoard) :
    List GMove → EBoard → Int → Nat → (Int × Nat) × EBoard
  | [], b, best, nodes => ((best, nodes), b)
  | m :: ms, b, best, nodes =>
    let b1 := pushB m b
    let r := rec b1
    let b2 := popB r.2
    let nodes1 := nodes + r.1.2 + 1
    let best1 := max best (-r.1.1)
    mmloop rec ms b2 best1 nodes1

/-- `Level2Engine.minimax(board, depth)`. -/
def minimax (evalMat repPen : GTree → Int) : Nat → EBoard → Nat → (Int × Nat) × EBoard
  | 0, b, _ => ((evalMat b.cur - repPen b.cur, 1), b)
  | fuel + 1, b, depth =>
    if depth = 0 ∨ isGameOverE b then ((evalMat b.cur - repPen b.cur, 1), b)
    else
      mmloop (fun b1 => minimax evalMat repPen fuel b1 (depth - 1))
        (legalMovesE b) b (-10000000) 0

/-- The root loop of `Level2Engine.choose_move`: each root move is scored
by the negated minimax value less the repetition penalty of the (restored)
root position. -/
def rootLoop (evalMat repPen : GTree → Int) (fuel depth : Nat) :
    List GMove → List (GMove × Int) → Nat → EBoard →
    (List (GMove × Int) × Nat) × EBoard
  | [], scored, tn, b => ((scored, tn), b)
  | m :: ms, scored, tn, b =>
    let b1 := pushB m b
    let r := minimax evalMat repPen fuel b1 (depth - 1)
    let b2 := popB r.2
    let tn1 := tn + r.1.2 + 1
    let penalty := repPen b2.cur
    rootLoop evalMat repPen fuel depth ms (scored ++ [(m, -r.1.1 - penalty)]) tn1 b2

/-- `Level2Engine.choose_move(board, time_limit)` (depth 2): score all root
moves, sort descending (stable), and draw uniformly among the top
`min(3, len)` — the draw stream `rng` models `random.choice`. -/
def chooseMove (evalMat repPen : GTree → Int) (rng : Nat → Nat) (fuel : Nat)
    (b : EBoard) : SearchResultE × EBoard :=
  let depth := 2
  let r := rootLoop evalMat repPen fuel depth (legalMovesE b) [] 0 b
  let scored := r.1.1
  if scored = [] then (⟨none, 0, depth, r.1.2⟩, r.2)
  else
    let sorted := sortRevBy (fun p => p.2) scored
    let top_n := min 3 sorted.length
    let pick := (sorted.take top_n).getD (rng 0 % top_n) ({ id := 0 }, 0)
    (⟨some pick.1, pick.2, depth, r.1.2⟩, r.2)

end Level2

/-! ## Level4Engine (src/backend/app/engine/level4_engine.py)

Iterative deepening alpha-beta with transposition-table caching.  The
search state `SState` threads the board, the time-check index, the
`nodes[0]` counter and the engine's table. -/

namespace Level4

/-- Search state threaded through `Level4Engine.alphabeta`. -/
structure SState where
  board : EBoard
  tIdx : Nat
  nodes : Nat
  tt : TranspositionTable

/-- `Level4Engine.order_moves` move score: MVV-LVA plus flat bonuses for
checks (300) and promotions (200). -/
def moveScore (m : GMove) : Int :=
  let s1 : Int :=
    if m.isCapture then
      match m.captured, m.mover with
      | some c, some v => 10 * c - v
      | _, _ => 0
    else 0
  let s2 : Int := if m.givesCheck then 300 else 0
  let s3 : Int := if m.promotion.isSome then 200 else 0
  s1 + s2 + s3

/-- `Level4Engine.order_moves(board, moves)`. -/
def orderMoves (moves : List GMove) : List GMove :=
  sortRevBy moveScore moves

/-- The captures-only loop of `Level4Engine.quiescence`. -/
def qloop (q : EBoard → Int → Int → Nat → Int × EBoard × Nat) :
    List GMove → EBoard → Int → Int → Nat → Int × EBoard × Nat
  | [], b, alpha, _, nodes => (alpha, b, nodes)
  | m :: ms, b, alpha, beta, nodes =>
    if !m.isCapture then
      qloop q ms b alpha beta nodes
    else
      let b1 := pushB m b
      let r := q b1 (-beta) (-alpha) nodes
      let score := -r.1
      let b2 := popB r.2.1
      if score ≥ beta then (beta, b2, r.2.2)
      else
        let alpha1 := if alpha < score then score else alpha
        qloop q ms b2 alpha1 beta r.2.2

/-- `Level4Engine.quiescence(board, alpha, beta, nodes)`: terminal positions
are resolved first via `evaluate_terminal_position`. -/
def quiescence : Nat → EBoard → Int → Int → Nat → Int × EBoard × Nat
  | 0, b, alpha, _, nodes => (alpha, b, nodes)
  | fuel + 1, b, alpha, beta, nodes =>
    match evaluateTerminalPosition b with
    | some t => (t, b, nodes + 1)
    | none =>
      let stand_pat := evaluateE b
      let nodes1 := nodes + 1
      if stand_pat ≥ beta then (beta, b, nodes1)
      else
        let alpha1 := if alpha < stand_pat then stand_pat else alpha
        qloop (quiescence fuel) (orderMoves (legalMovesE b)) b alpha1 beta nodes1

/-- The move loop of `Level4Engine.alphabeta`: running `best_score` and
window, with a time check before every move. -/
def abloop (oracle : Nat → Bool) (rec : SState → Int → Int → Int × SState) :
    List GMove → SState → Int → Int → Int → Int × SState
  | [], st, best, _, _ => (best, st)
  | m :: ms, st, best, alpha, beta =>
    if oracle st.tIdx then (best, { st with tIdx := st.tIdx + 1 })
    else
      let st1 := { st with tIdx := st.tIdx + 1, board := pushB m st.board }
      let r := rec st1 (-beta) (-alpha)
      let st2 := { r.2 with board := popB r.2.board }
      let score := -r.1
      let best1 := if score > best then score else best
      let alpha1 := if score > alpha then score else alpha
      if alpha1 ≥ beta then (best1, st2)
      else abloop oracle rec ms st2 best1 alpha1 beta

/-- `Level4Engine.alphabeta(board, depth, alpha, beta, start, time_limit,
nodes)`: terminal check, transposition probe (exact hits returned, bound
hits tightening the window), recursive search or quiescence, then the
transposition store. -/
def alphabeta (oracle : Nat → Bool) : Nat → SState → Nat → Int → Int → Int × SState
  | 0, st, _, alpha, _ => (alpha, st)
  | fuel + 1, st, depth, alpha, beta =>
    let original_alpha := alpha
    match evaluateTerminalPosition st.board with
    | some t => (t, st)
    | none =>
      let hash_key := st.board.cur.hashv
      let pr := st.tt.probe hash_key depth alpha beta
      let st0 := { st with tt := pr.2 }
      let tres : Option Int × Int × Int :=
        match pr.1 with
        | none => (none, alpha, beta)
        | some (score, flag) =>
          if flag = TTEntry.EXACT then (some score, alpha, beta)
          else
            let alpha1 := if flag = TTEntry.LOWER_BOUND then max alpha score else alpha
            let beta1 := if flag = TTEntry.UPPER_BOUND then min beta score else beta
            if alpha1 ≥ beta1 then (some score, alpha1, beta1)
            else (none, alpha1, beta1)
      match tres.1 with
      | some s => (s, st0)
      | none =>
        let alpha := tres.2.1
        let beta := tres.2.2
        let sr :=
          if depth = 0 then
            let q := quiescence (fuel + 1) st0.board alpha beta st0.nodes
            (q.1, { st0 with board := q.2.1, nodes := q.2.2 })
          else
            let moves := orderMoves (legalMovesE st0.board)
            let r := abloop oracle
              (fun s a bb => alphabeta oracle fuel s (depth - 1) a bb)
              moves st0 (-10000000) alpha beta
            (r.1, { r.2 with nodes := r.2.nodes + 1 })
        let score := sr.1
        let flag :=
          if score ≤ original_alpha then TTEntry.UPPER_BOUND
          else if score ≥ beta then TTEntry.LOWER_BOUND
          else TTEntry.EXACT
        (score, { sr.2 with tt := sr.2.tt.store hash_key score depth flag none })

/-- The root-move loop of one iteration of `Level4Engine.choose_move`. -/
def rootLoop (oracle : Nat → Bool) (fuel : Nat) (depth : Nat) :
    List GMove → (Option GMove × Int) → SState → Nat →
    (Option GMove × Int) × SState × Nat
  | [], best, st, totalNodes => (best, st, totalNodes)
  | m :: ms, best, st, totalNodes =>
    if oracle st.tIdx then (best, { st with tIdx := st.tIdx + 1 }, totalNodes)
    else
      let st1 := { st with tIdx := st.tIdx + 1, board := pushB m st.board, nodes := 0 }
      let r := alphabeta oracle fuel st1 (depth - 1) (-1000000) 1000000
      let score := -r.1
      let st2 := { r.2 with board := popB r.2.board }
      let best1 := if score > best.2 then (some m, score) else best
      rootLoop oracle fuel depth ms best1 st2 (totalNodes + r.2.nodes)

/-- Running state of the iterative-deepening loop of
`Level4Engine.choose_move`. -/
structure IterState where
  bestMove : Option GMove
  bestScore : Int
  searchedDepth : Nat
  totalNodes : Nat
  st : SState

/-- The depth loop of `Level4Engine.choose_move`. -/
def depthLoop (oracle : Nat → Bool) (fuel : Nat) (ordered : List GMove) :
    List Nat → IterState → IterState
  | [], it => it
  | d :: rest, it =>
    if oracle it.st.tIdx then { it with st := { it.st with tIdx := it.st.tIdx + 1 } }
    else
      let r := rootLoop oracle fuel d ordered (it.bestMove, -10000000)
        { it.st with tIdx := it.st.tIdx + 1 } it.totalNodes
      let it1 : IterState :=
        match r.1.1 with
        | some m =>
            { bestMove := some m, bestScore := r.1.2, searchedDepth := d,
              totalNodes := r.2.2, st := r.2.1 }
        | none =>
            { it with totalNodes := r.2.2, st := r.2.1 }
      depthLoop oracle fuel ordered rest it1

/-- `Level4Engine.choose_move(board, time_limit)` (max_depth = 6, cache
cleared on entry), returning the `SearchResult`, the board left behind and
the engine's table. -/
def chooseMove (oracle : Nat → Bool) (fuel : Nat) (b : EBoard)
    (tt : TranspositionTable) : SearchResultE × EBoard × TranspositionTable :=
  let tt0 := tt.clear
  let ordered := orderMoves (legalMovesE b)
  let it := depthLoop oracle fuel ordered [1, 2, 3, 4, 5, 6]
    ⟨none, -10000000, 0, 0, ⟨b, 0, 0, tt0⟩⟩
  (⟨it.bestMove, it.bestScore, it.searchedDepth, it.totalNodes⟩, it.st.board, it.st.tt)

end Level4

/-! ## UltimateEngine (src/submit/backend/app/engine/ultimate_engine.py)

Iterative deepening alpha-beta with transposition caching and a guarded
tactical quiescence (SEE pruning, delta pruning, safe-check filtering,
depth/node caps).  `UState` threads board, time index, `nodes[0]`,
`qnodes[0]` and the table. -/

namespace Ultimate

/-- Search state threaded through `UltimateEngine.alphabeta`. -/
structure UState where
  board : EBoard
  tIdx : Nat
  nodes : Nat
  qnodes : Nat
  tt : TranspositionTable

/-- `UltimateEngine._see(board, move)`: lightweight static exchange
estimate from the per-move attributes. -/
def see (m : GMove) : Int :=
  match m.mover with
  | none => 0
  | some attacker_value =>
    let captured_value : Int :=
      if m.isCapture then
        if m.isEnPassant then 100
        else match m.captured with | some c => c | none => 0
      else 0
    let promo_gain : Int :=
      match m.promotion with | some p => p - 100 | none => 0
    captured_value + promo_gain - attacker_value

/-- `UltimateEngine._max_gain(board, move)`. -/
def maxGain (m : GMove) : Int :=
  let g1 : Int :=
    if m.isCapture then
      if m.isEnPassant then 100
      else match m.captured with | some c => c | none => 0
    else 0
  let g2 : Int :=
    match m.promotion with | some p => p - 100 | none => 0
  g1 + g2

/-- `UltimateEngine._is_losing_capture(board, move)`. -/
def isLosingCapture (m : GMove) : Bool :=
  m.isCapture && decide (see m < 0)

/-- `UltimateEngine._is_promotion_threat(board, move)`. -/
def isPromotionThreat (b : EBoard) (m : GMove) : Bool :=
  if !m.moverIsPawn || m.promotion.isSome then false
  else
    let to_rank := m.toSquare / 8
    (b.turn && decide (to_rank = 6)) || (!b.turn && decide (to_rank = 1))

/-- `UltimateEngine._safe_check(board, move)`: pushes the move, inspects
attack maps of the resulting position, pops. -/
def safeCheck (b : EBoard) (m : GMove) : Bool :=
  if m.isCapture then true
  else
    let b1 := pushB m b
    let attacked := b1.cur.attackedBy b1.turn m.toSquare
    let defended := b1.cur.attackedBy (!b1.turn) m.toSquare
    let _ := popB b1
    !attacked || defended

/-- `UltimateEngine._order_q_moves` move score. -/
def orderQScore (m : GMove) : Int :=
  let s1 : Int :=
    match m.promotion with | some p => 2000 + p | none => 0
  let s2 : Int :=
    if m.isCapture then
      let captured_value : Int :=
        if m.isEnPassant then 100
        else match m.captured with | some c => c | none => 0
      let attacker_value : Int :=
        match m.mover with | some v => v | none => 0
      10 * captured_value - attacker_value + see m
    else 0
  let s3 : Int := if m.givesCheck then 300 else 0
  s1 + s2 + s3

/-- `UltimateEngine._order_q_moves(board, moves)`. -/
def orderQMoves (moves : List GMove) : List GMove :=
  sortRevBy orderQScore moves

/-- `UltimateEngine._generate_q_moves(board, in_check, qdepth)`. -/
def generateQMoves (b : EBoard) (in_check : Bool) (qdepth : Nat) : List GMove :=
  if in_check then legalMovesE b
  else
    (legalMovesE b).filter fun m =>
      (m.isCapture || m.promotion.isSome) ||
      (m.givesCheck && decide (qdepth < 4) && safeCheck b m) ||
      isPromotionThreat b m

/-- The tactical-move loop of `UltimateEngine.quiescence` with its skip
conditions (losing captures, delta pruning against the running alpha,
unsafe checks) and the `qnodes` cap break; `q` is the recursive quiescence
call at `qdepth + 1`. -/
def qloop (q : EBoard → Int → Int → Nat → Nat → Int × EBoard × Nat × Nat)
    (in_check : Bool) (stand_pat : Int) :
    List GMove → EBoard → Int → Int → Nat → Nat → Int × EBoard × Nat × Nat
  | [], b, alpha, _, nodes, qnodes => (alpha, b, nodes, qnodes)
  | m :: ms, b, alpha, beta, nodes, qnodes =>
    if !in_check &&
        ((m.isCapture && isLosingCapture m) ||
         decide (stand_pat + maxGain m + 90 ≤ alpha) ||
         (m.givesCheck && !safeCheck b m)) then
      qloop q in_check stand_pat ms b alpha beta nodes qnodes
    else
      let b1 := pushB m b
      let r := q b1 (-beta) (-alpha) nodes qnodes
      let score := -r.1
      let b2 := popB r.2.1
      if score ≥ beta then (beta, b2, r.2.2.1, r.2.2.2)
      else
        let alpha1 := if score > alpha then score else alpha
        if r.2.2.2 ≥ 20000 then (alpha1, b2, r.2.2.1, r.2.2.2)
        else qloop q in_check stand_pat ms b2 alpha1 beta r.2.2.1 r.2.2.2

/-- `UltimateEngine.quiescence(board, alpha, beta, nodes, qnodes, qdepth)`
(qdepth_limit = 8, qnode_limit = 20000, delta_margin = 90). -/
def quiescence : Nat → EBoard → Int → Int → Nat → Nat → Nat → Int × EBoard × Nat × Nat
  | 0, b, alpha, _, nodes, qnodes, _ => (alpha, b, nodes, qnodes)
  | fuel + 1, b, alpha, beta, nodes, qnodes, qdepth =>
    match evaluateTerminalPosition b with
    | some t => (t, b, nodes + 1, qnodes + 1)
    | none =>
      let stand_pat := evaluateE b
      let nodes1 := nodes + 1
      let qnodes1 := qnodes + 1
      if stand_pat ≥ beta then (beta, b, nodes1, qnodes1)
      else
        let alpha1 := if stand_pat > alpha then stand_pat else alpha
        if qdepth ≥ 8 ∨ qnodes1 ≥ 20000 then (alpha1, b, nodes1, qnodes1)
        else
          let in_check := b.cur.inCheck
          let moves := generateQMoves b in_check qdepth
          if moves = [] then (alpha1, b, nodes1, qnodes1)
          else
            qloop (fun b1 a1 b2 n1 q1 => quiescence fuel b1 a1 b2 n1 q1 (qdepth + 1))
              in_check stand_pat (orderQMoves moves) b alpha1 beta nodes1 qnodes1

/-- The move loop of `UltimateEngine.alphabeta`. -/
def abloop (oracle : Nat → Bool) (rec : UState → Int → Int → Int × UState) :
    List GMove → UState → Int → Int → Int → Int × UState
  | [], st, best, _, _ => (best, st)
  | m :: ms, st, best, alpha, beta =>
    if oracle st.tIdx then (best, { st with tIdx := st.tIdx + 1 })
    else
      let st1 := { st with tIdx := st.tIdx + 1, board := pushB m st.board }
      let r := rec st1 (-beta) (-alpha)
      let st2 := { r.2 with board := popB r.2.board }
      let score := -r.1
      let best1 := if score > best then score else best
      let alpha1 := if score > alpha then score else alpha
      if alpha1 ≥ beta then (best1, st2)
      else abloop oracle rec ms st2 best1 alpha1 beta

/-- `UltimateEngine.alphabeta(...)`: the AB node is counted first, then the
terminal check, the transposition probe, quiescence or the move loop, and
the transposition store. -/
def alphabeta (oracle : Nat → Bool) : Nat → UState → Nat → Int → Int → Int × UState
  | 0, st, _, alpha, _ => (alpha, st)
  | fuel + 1, st, depth, alpha, beta =>
    let st := { st with nodes := st.nodes + 1 }
    let original_alpha := alpha
    match evaluateTerminalPosition st.board with
    | some t => (t, st)
    | none =>
      let hash_key := st.board.cur.hashv
      let pr := st.tt.probe hash_key depth alpha beta
      let st0 := { st with tt := pr.2 }
      let tres : Option Int × Int × Int :=
        match pr.1 with
        | none => (none, alpha, beta)
        | some (score, flag) =>
          if flag = TTEntry.EXACT then (some score, alpha, beta)
          else
            let alpha1 := if flag = TTEntry.LOWER_BOUND then max alpha score else alpha
            let beta1 := if flag = TTEntry.UPPER_BOUND then min beta score else beta
            if alpha1 ≥ beta1 then (some score, alpha1, beta1)
            else (none, alpha1, beta1)
      match tres.1 with
      | some s => (s, st0)
      | none =>
        let alpha := tres.2.1
        let beta := tres.2.2
        let sr :=
          if depth = 0 then
            let q := quiescence (fuel + 1) st0.board alpha beta st0.nodes st0.qnodes 0
            (q.1, { st0 with board := q.2.1, nodes := q.2.2.1, qnodes := q.2.2.2 })
          else
            let moves := orderMovesBase (legalMovesE st0.board)
            abloop oracle (fun s a bb => alphabeta oracle fuel s (depth - 1) a bb)
              moves st0 (-10000000) alpha beta
        let score := sr.1
        let flag :=
          if score ≤ original_alpha then TTEntry.UPPER_BOUND
          else if score ≥ beta then TTEntry.LOWER_BOUND
          else TTEntry.EXACT
        (score, { sr.2 with tt := sr.2.tt.store hash_key score depth flag none })

/-- The root-move loop of one iteration of `UltimateEngine.choose_move`
(fresh `nodes`/`qnodes` counters per root move, totals accumulated). -/
def rootLoop (oracle : Nat → Bool) (fuel : Nat) (depth : Nat) :
    List GMove → (Option GMove × Int) → UState → Nat → Nat →
    (Option GMove × Int) × UState × Nat × Nat
  | [], best, st, totalNodes, totalQnodes => (best, st, totalNodes, totalQnodes)
  | m :: ms, best, st, totalNodes, totalQnodes =>
    if oracle st.tIdx then
      (best, { st with tIdx := st.tIdx + 1 }, totalNodes, totalQnodes)
    else
      let st1 := { st with
        tIdx := st.tIdx + 1
        board := pushB m st.board
        nodes := 0
        qnodes := 0 }
      let r := alphabeta oracle fuel st1 (depth - 1) (-1000000) 1000000
      let score := -r.1
      let st2 := { r.2 with board := popB r.2.board }
      let best1 := if score > best.2 then (some m, score) else best
      rootLoop oracle fuel depth ms best1 st2
        (totalNodes + r.2.nodes) (totalQnodes + r.2.qnodes)

/-- Running state of the iterative-deepening loop of
`UltimateEngine.choose_move`. -/
structure IterState where
  bestMove : Option GMove
  bestScore : Int
  searchedDepth : Nat
  totalNodes : Nat
  totalQnodes : Nat
  st : UState

/-- The depth loop of `UltimateEngine.choose_move`; the root moves are
re-ordered at the start of every iteration. -/
def depthLoop (oracle : Nat → Bool) (fuel : Nat) :
    List Nat → IterState → IterState
  | [], it => it
  | d :: rest, it =>
    if oracle it.st.tIdx then { it with st := { it.st with tIdx := it.st.tIdx + 1 } }
    else
      let ordered := orderMovesBase (legalMovesE it.st.board)
      let r := rootLoop oracle fuel d ordered (it.bestMove, -10000000)
        { it.st with tIdx := it.st.tIdx + 1 } it.totalNodes it.totalQnodes
      let it1 : IterState :=
        match r.1.1 with
        | some m =>
            { bestMove := some m, bestScore := r.1.2, searchedDepth := d,
              totalNodes := r.2.2.1, totalQnodes := r.2.2.2, st := r.2.1 }
        | none =>
            { it with totalNodes := r.2.2.1, totalQnodes := r.2.2.2, st := r.2.1 }
      depthLoop oracle fuel rest it1

/-- `UltimateEngine.choose_move(board, time_limit)` (max_depth = 8, cache
cleared on entry; the timing diagnostics of `extra_info` are outside the
model). -/
def chooseMove (oracle : Nat → Bool) (fuel : Nat) (b : EBoard)
    (tt : TranspositionTable) : SearchResultE × EBoard × TranspositionTable :=
  let tt0 := tt.clear
  let it := depthLoop oracle fuel [1, 2, 3, 4, 5, 6, 7, 8]
    ⟨none, -10000000, 0, 0, 0, ⟨b, 0, 0, 0, tt0⟩⟩
  (⟨it.bestMove, it.bestScore, it.searchedDepth, it.totalNodes⟩, it.st.board, it.st.tt)

end Ultimate

/-! ## MCTS (src/submit/backend/app/engine/mcts_engine.py,
src/backend/app/engine/mcts_cnn_engine.py)

The node tree of one `choose_move` call; each node owns a position
snapshot (a `GTree`), a uniform prior, its children keyed by move, and the
visit/value statistics.  Float value arithmetic is modelled exactly: by
rationals where no square root occurs, by reals in the PUCT selection
formula. -/

namespace MCTS

/-- `MCTSNode`: board snapshot, prior, the move that led here, children
(dict in insertion order, keyed by move), visit count, value sum.  The
non-owning parent back-reference is implicit in the recursion structure. -/
inductive MCTSNodeE where
  | mk (board : GTree) (prior : ℝ) (move : Option GMove)
      (children : List (GMove × MCTSNodeE)) (visit_count : Nat) (value_sum : ℝ)

def MCTSNodeE.board : MCTSNodeE → GTree
  | .mk b _ _ _ _ _ => b

def MCTSNodeE.prior : MCTSNodeE → ℝ
  | .mk _ p _ _ _ _ => p

def MCTSNodeE.move : MCTSNodeE → Option GMove
  | .mk _ _ m _ _ _ => m

def MCTSNodeE.children : MCTSNodeE → List (GMove × MCTSNodeE)
  | .mk _ _ _ c _ _ => c

def MCTSNodeE.visit_count : MCTSNodeE → Nat
  | .mk _ _ _ _ v _ => v

def MCTSNodeE.value_sum : MCTSNodeE → ℝ
  | .mk _ _ _ _ _ s => s

/-- `MCTSNode.is_expanded()`: `len(self.children) > 0`. -/
def MCTSNodeE.is_expanded (n : MCTSNodeE) : Bool :=
  decide (n.children.length > 0)

/-- The `value` property: `value_sum / visit_count`, 0 when unvisited. -/
noncomputable def MCTSNodeE.value (n : MCTSNodeE) : ℝ :=
  if n.visit_count = 0 then 0 else n.value_sum / n.visit_count

/-- The PUCT score `MCTSNode.select` computes for a child:
`child.value + c_puct * child.prior * sqrt_visits / (1 + child.visit_count)`
where `sqrt_visits = sqrt(self.visit_count + 1)` is fixed by the parent. -/
noncomputable def puctScore (c_puct : ℝ) (sqrt_visits : ℝ) (child : MCTSNodeE) : ℝ :=
  child.value + c_puct * child.prior * sqrt_visits / (1 + child.visit_count)

/-- The loop over `self.children.items()` in `MCTSNode.select`: keep the
first strictly improving child, starting from the sentinel score `-1e9`. -/
noncomputable def selectLoop (c_puct : ℝ) (sqrt_visits : ℝ) :
    List (GMove × MCTSNodeE) → Option (GMove × MCTSNodeE) → ℝ →
    Option (GMove × MCTSNodeE)
  | [], best, _ => best
  | (mv, child) :: rest, best, best_score =>
    let score := puctScore c_puct sqrt_visits child
    if score > best_score then selectLoop c_puct sqrt_visits rest (some (mv, child)) score
    else selectLoop c_puct sqrt_visits rest best best_score

/-- `MCTSNode.select(c_puct)`.  The source asserts the result is non-None;
`none` models the `AssertionError` raised when no child scores above the
sentinel. -/
noncomputable def select (c_puct : ℝ) (n : MCTSNodeE) : Option (GMove × MCTSNodeE) :=
  let sqrt_visits := Real.sqrt (n.visit_count + 1)
  selectLoop c_puct sqrt_visits n.children none (-1000000000)

/-- Python `int(...)` truncation toward zero of an exact rational. -/
def pyTrunc (q : ℚ) : Int :=
  q.num / (q.den : Int)

/-- `max(-0.99, min(0.99, x))` as used by the rollout value head. -/
def qclamp (x : ℚ) : ℚ :=
  max (-99/100 : ℚ) (min (99/100 : ℚ) x)

/-- `max(-1.0, min(1.0, x))` as used by the CNN value head. -/
def qclamp1 (x : ℚ) : ℚ :=
  max (-1 : ℚ) (min (1 : ℚ) x)

/-- `MCTSEngine._sample_move(board, moves)`: order the moves, take the top
k = max(1, min(4, len)), and draw uniformly; the draw stream `rng` models
`random.choice`. -/
def sampleMove (rng : Nat → Nat) (rIdx : Nat) (moves : List GMove) :
    GMove × Nat :=
  let ordered := orderMovesBase moves
  let top_k := max 1 (min 4 ordered.length)
  (ordered.getD (rng rIdx % top_k) { id := 0 }, rIdx + 1)

/-- The `while depth < rollout_depth and not game_over` loop of
`MCTSEngine._rollout`: time check, transposition probe (early value
return), sampling and descent.  The fuel is the remaining depth budget
`rollout_depth - depth`.  Returns the early cached value (if any), the
position reached, and the threaded table / time / rng indices. -/
def rolloutLoop (oracle : Nat → Bool) (rng : Nat → Nat) :
    Nat → GTree → TranspositionTable → Nat → Nat →
    Option ℚ × GTree × TranspositionTable × Nat × Nat
  | 0, t, tt, tIdx, rIdx => (none, t, tt, tIdx, rIdx)
  | fuel + 1, t, tt, tIdx, rIdx =>
    if t.gameOver then (none, t, tt, tIdx, rIdx)
    else if oracle tIdx then (none, t, tt, tIdx + 1, rIdx)
    else
      let pr := tt.probe t.hashv 0 (-1000000) 1000000
      match pr.1 with
      | some (score, _) =>
          (some (qclamp ((score : ℚ) / 5000)), t, pr.2, tIdx + 1, rIdx)
      | none =>
        let moves := t.children.map Prod.fst
        if moves = [] then (none, t, pr.2, tIdx + 1, rIdx)
        else
          let s := sampleMove rng rIdx moves
          rolloutLoop oracle rng fuel (t.childAfter s.1) pr.2 (tIdx + 1) s.2

/-- `MCTSEngine._rollout(board, start, time_limit)` on a stack-free copy of
the leaf position: the bounded sampling walk, then the terminal /cached/
heuristic scoring of the final position (the heuristic score is cached). -/
def rollout (rollout_depth : Nat) (oracle : Nat → Bool) (rng : Nat → Nat)
    (t0 : GTree) (tt : TranspositionTable) (tIdx rIdx : Nat) :
    ℚ × TranspositionTable × Nat × Nat :=
  let r := rolloutLoop oracle rng rollout_depth t0 tt tIdx rIdx
  let t := r.2.1
  let tt1 := r.2.2.1
  let tIdx1 := r.2.2.2.1
  let rIdx1 := r.2.2.2.2
  match r.1 with
  | some v => (v, tt1, tIdx1, rIdx1)
  | none =>
    if t.isCheckmate then (-1, tt1, tIdx1, rIdx1)
    else if t.isStalemate || t.isInsufficientMaterial then (0, tt1, tIdx1, rIdx1)
    else
      let pr := tt1.probe t.hashv 0 (-1000000) 1000000
      match pr.1 with
      | some (score, _) => (qclamp ((score : ℚ) / 5000), pr.2, tIdx1, rIdx1)
      | none =>
        let eval_score := t.val
        let value := qclamp ((eval_score : ℚ) / 5000)
        (value, pr.2.store t.hashv eval_score 0 TTEntry.EXACT none, tIdx1, rIdx1)

/-- `MCTSEngine._evaluate_leaf(node, start, time_limit)`: terminal values,
then the transposition short-circuit, else the heuristic rollout whose
value is cached in centipawns. -/
def evaluateLeaf (rollout_depth : Nat) (oracle : Nat → Bool) (rng : Nat → Nat)
    (t : GTree) (tt : TranspositionTable) (tIdx rIdx : Nat) :
    ℚ × TranspositionTable × Nat × Nat :=
  if t.isCheckmate then (-1, tt, tIdx, rIdx)
  else if t.isStalemate || t.isInsufficientMaterial || t.canClaimThreefold
      || t.canClaimFifty then (0, tt, tIdx, rIdx)
  else
    let pr := tt.probe t.hashv 0 (-1000000) 1000000
    match pr.1 with
    | some (score, _) => (qclamp ((score : ℚ) / 5000), pr.2, tIdx, rIdx)
    | none =>
      let r := rollout rollout_depth oracle rng t pr.2 tIdx rIdx
      let value := r.1
      let score_centipawns := pyTrunc (value * 5000)
      (value, r.2.1.store t.hashv score_centipawns 0 TTEntry.EXACT none,
        r.2.2.1, r.2.2.2)

/-- The fallback tail of `MCTSCNNEvalEngine._evaluate_leaf` (the lines
after the `try`): the parent class's rollout evaluator is consulted, but
the re-caching statement `self.tt.store(..., TTEntry.EXACT)` references
`TTEntry`, a name mcts_cnn_engine.py never imports; the table is always
enabled on this engine, so the statement raises `NameError` outside any
`try` and the exception propagates out of `_evaluate_leaf`.  `Except.error`
models that uncaught exception (the table mutations the rollout made
before the raise die with the crashed call). -/
def cnnFallback (rollout_depth : Nat) (oracle : Nat → Bool) (rng : Nat → Nat)
    (t : GTree) (tt : TranspositionTable) (tIdx rIdx : Nat) :
    Except Unit (ℚ × TranspositionTable × Nat × Nat) :=
  let _r := evaluateLeaf rollout_depth oracle rng t tt tIdx rIdx
  Except.error ()

/-- `MCTSCNNEvalEngine._evaluate_leaf(node, start, time_limit)`: terminal
values and the cache short-circuit return normally; every other path ends
in `cnnFallback` and hence in the uncaught `NameError`.  When the model is
loaded and time remains, the CNN evaluation runs inside `try ... except
Exception`: on success, the in-`try` cache store references the unimported
`TTEntry` and raises `NameError`, which the `except` catches, so even a
successful CNN value is discarded and the code falls through to the
fallback; an evaluator failure is caught the same way; an absent model
skips straight to the fallback. -/
def cnnEvaluateLeaf (model : Option Unit) (cnn : GTree → Except Unit ℚ)
    (rollout_depth : Nat) (oracle : Nat → Bool) (rng : Nat → Nat)
    (t : GTree) (tt : TranspositionTable) (tIdx rIdx : Nat) :
    Except Unit (ℚ × TranspositionTable × Nat × Nat) :=
  if t.isCheckmate then .ok (-1, tt, tIdx, rIdx)
  else if t.isStalemate || t.isInsufficientMaterial || t.canClaimThreefold
      || t.canClaimFifty then .ok (0, tt, tIdx, rIdx)
  else
    let pr := tt.probe t.hashv 0 (-1000000) 1000000
    match pr.1 with
    | some (score, _) => .ok (qclamp1 ((score : ℚ) / 5000), pr.2, tIdx, rIdx)
    | none =>
      match model with
      | none => cnnFallback rollout_depth oracle rng t pr.2 tIdx rIdx
      | some _ =>
        if oracle tIdx then cnnFallback rollout_depth oracle rng t pr.2 (tIdx + 1) rIdx
        else
          match cnn t with
          | .ok _v =>
              -- `self.tt.store(hash_key, int(value * 5000), 0, TTEntry.EXACT)`
              -- raises NameError inside the `try`; `except Exception` catches
              -- it and execution falls through to the rollout fallback, so
              -- the CNN value is never returned while the table is enabled
              cnnFallback rollout_depth oracle rng t pr.2 (tIdx + 1) rIdx
          | .error _ => cnnFallback rollout_depth oracle rng t pr.2 (tIdx + 1) rIdx

/-- `MCTSNode.expand(engine)`: no-op when the game is over or there are no
legal moves; otherwise one child per ordered legal move with the uniform
prior `1 / branching`, each owning a stack-free successor snapshot. -/
noncomputable def expand (node : MCTSNodeE) : MCTSNodeE :=
  if node.board.gameOver then node
  else
    let legal_moves := node.board.children.map Prod.fst
    let ordered := orderMovesBase legal_moves
    if ordered = [] then node
    else
      let prior : ℝ := 1 / ordered.length
      match node with
      | .mk b p m _ v s =>
        .mk b p m
          (ordered.map fun mv =>
            (mv, MCTSNodeE.mk (node.board.childAfter mv) prior (some mv) [] 0 0))
          v s

/-- One backpropagation update: `visit_count += 1; value_sum += value`. -/
noncomputable def MCTSNodeE.addVisit (n : MCTSNodeE) (v : ℚ) : MCTSNodeE :=
  match n with
  | .mk b p m c vc s => .mk b p m c (vc + 1) (s + (v : ℝ))

/-- `MCTSEngine._simulate(root, start, time_limit)`, by recursion on the
selection descent (`fuel` bounds its depth; the source descent is bounded
by the finite tree).  Returns the updated subtree together with `some v`,
the value the backpropagation added at this node's level (the parent adds
`-v`), or `none` when the mid-descent time check aborted the simulation
with no statistics updated; a failing `select` assertion or a leaf
evaluator exception propagates as `Except.error`.  `evalLeaf` is the
dynamically dispatched `self._evaluate_leaf`. -/
noncomputable def simulate (c_puct : ℝ) (oracle : Nat → Bool)
    (evalLeaf : GTree → TranspositionTable → Nat → Nat →
      Except Unit (ℚ × TranspositionTable × Nat × Nat)) :
    Nat → MCTSNodeE → TranspositionTable → Nat → Nat →
    Except Unit (MCTSNodeE × Option ℚ × TranspositionTable × Nat × Nat)
  | 0, node, tt, tIdx, rIdx => .ok (node, none, tt, tIdx, rIdx)
  | fuel + 1, node, tt, tIdx, rIdx =>
    if node.is_expanded && !node.children.isEmpty then
      if oracle tIdx then .ok (node, none, tt, tIdx + 1, rIdx)
      else
        match select c_puct node with
        | none => .error ()
        | some (mv, child) =>
          match simulate c_puct oracle evalLeaf fuel child tt (tIdx + 1) rIdx with
          | .error e => .error e
          | .ok (child1, vopt, tt1, tIdx1, rIdx1) =>
            let node1 :=
              match node with
              | .mk b p m c vc s =>
                MCTSNodeE.mk b p m
                  (c.map fun q => if q.1 = mv then (mv, child1) else q) vc s
            match vopt with
            | none => .ok (node1, none, tt1, tIdx1, rIdx1)
            | some v => .ok (node1.addVisit (-v), some (-v), tt1, tIdx1, rIdx1)
    else
      let node1 := if !node.is_expanded then expand node else node
      match evalLeaf node1.board tt tIdx rIdx with
      | .error e => .error e
      | .ok (value, tt1, tIdx1, rIdx1) =>
        .ok (node1.addVisit value, some value, tt1, tIdx1, rIdx1)

/-- The `while not is_time_exceeded(start, time_limit)` simulation loop of
`MCTSEngine.choose_move` (`fuel` bounds the iteration count the wall clock
bounds in the source; `dfuel` bounds each descent).  Returns the root,
table, indices and the `simulations_run` count. -/
noncomputable def simLoop (c_puct : ℝ) (oracle : Nat → Bool)
    (evalLeaf : GTree → TranspositionTable → Nat → Nat →
      Except Unit (ℚ × TranspositionTable × Nat × Nat)) (dfuel : Nat) :
    Nat → MCTSNodeE → TranspositionTable → Nat → Nat → Nat →
    Except Unit (MCTSNodeE × TranspositionTable × Nat × Nat × Nat)
  | 0, root, tt, tIdx, rIdx, sims => .ok (root, tt, tIdx, rIdx, sims)
  | fuel + 1, root, tt, tIdx, rIdx, sims =>
    if oracle tIdx then .ok (root, tt, tIdx + 1, rIdx, sims)
    else
      match simulate c_puct oracle evalLeaf dfuel root tt (tIdx + 1) rIdx with
      | .error e => .error e
      | .ok (root1, _, tt1, tIdx1, rIdx1) =>
        simLoop c_puct oracle evalLeaf dfuel fuel root1 tt1 tIdx1 rIdx1 (sims + 1)

/-- The scan of `MCTSEngine._best_move`: highest visit count, ties broken
by higher value, from the sentinels `best_visits = -1`, `best_value =
-1e9`. -/
noncomputable def bestMoveLoop :
    List (GMove × MCTSNodeE) → Option GMove → Int → ℝ → Option GMove
  | [], best, _, _ => best
  | (mv, child) :: rest, best, best_visits, best_value =>
    if (child.visit_count : Int) > best_visits ∨
        ((child.visit_count : Int) = best_visits ∧ child.value > best_value) then
      bestMoveLoop rest (some mv) child.visit_count child.value
    else bestMoveLoop rest best best_visits best_value

/-- `MCTSEngine._best_move(root)`. -/
noncomputable def bestMove (root : MCTSNodeE) : Option GMove :=
  if root.children.isEmpty then none
  else bestMoveLoop root.children none (-1) (-1000000000)

/-- Python `int(...)` truncation toward zero of a real. -/
noncomputable def realTrunc (x : ℝ) : Int :=
  if 0 ≤ x then ⌊x⌋ else -⌊-x⌋

/-- `MCTSEngine.choose_move(board, time_limit)`: clear the cache; a
game-over borrowed board returns the no-move result; otherwise the root is
a stack-free snapshot of the borrowed position (`board.copy(stack=False)`),
the whole simulation loop runs on that snapshot's node tree, and the
borrowed board is never pushed, popped or written.  `score_hint =
int(best_child.value * 10_000)`, `depth_hint = min(rollout_depth, 8)`.  A
propagated simulation-loop exception leaves `choose_move` with no result
(the borrowed board still untouched). -/
noncomputable def chooseMove (c_puct : ℝ) (rollout_depth : Nat)
    (evalLeaf : GTree → TranspositionTable → Nat → Nat →
      Except Unit (ℚ × TranspositionTable × Nat × Nat))
    (oracle : Nat → Bool) (dfuel simFuel : Nat) (b : EBoard)
    (tt : TranspositionTable) :
    Except Unit SearchResultE × EBoard × TranspositionTable :=
  let tt0 := tt.clear
  if isGameOverE b then (.ok ⟨none, 0, 0, 0⟩, b, tt0)
  else
    let root_board := b.cur
    let root := MCTSNodeE.mk root_board 0 none [] 0 0
    let root1 := expand root
    match simLoop c_puct oracle evalLeaf dfuel simFuel root1 tt0 0 0 0 with
    | .error e => (.error e, b, tt0)
    | .ok (root2, tt1, _, _, sims) =>
      match bestMove root2 with
      | none => (.ok ⟨none, 0, 1, sims⟩, b, tt1)
      | some mv =>
        let best_child :=
          (((root2.children.find? fun p => p.1 = mv).map Prod.snd).getD
            (MCTSNodeE.mk root_board 0 none [] 0 0))
        let score_hint := realTrunc (best_child.value * 10000)
        let depth_hint := min rollout_depth 8
        (.ok ⟨some mv, score_hint, depth_hint, sims⟩, b, tt1)

/-- The MCTS tier: `MCTSEngine.choose_move` with its defaults
(`c_puct = 1.4`, `rollout_depth = 14`) and its own `_evaluate_leaf`,
which never fails. -/
noncomputable def engineChooseMove (oracle : Nat → Bool) (rng : Nat → Nat)
    (dfuel simFuel : Nat) (b : EBoard) (tt : TranspositionTable) :
    Except Unit SearchResultE × EBoard × TranspositionTable :=
  chooseMove 1.4 14
    (fun t tt1 ti ri => .ok (evaluateLeaf 14 oracle rng t tt1 ti ri))
    oracle dfuel simFuel b tt

/-- The MCTS+CNN tier: `MCTSCNNEvalEngine.choose_move` delegates to the
parent loop with the subclass defaults (`c_puct = 1.3`,
`rollout_depth = 10`) and the overriding `_evaluate_leaf`. -/
noncomputable def cnnChooseMove (model : Option Unit)
    (cnn : GTree → Except Unit ℚ) (oracle : Nat → Bool) (rng : Nat → Nat)
    (dfuel simFuel : Nat) (b : EBoard) (tt : TranspositionTable) :
    Except Unit SearchResultE × EBoard × TranspositionTable :=
  chooseMove 1.3 10 (cnnEvaluateLeaf model cnn 10 oracle rng)
    oracle dfuel simFuel b tt

end MCTS

/-! ## Time-boxing (base_engine.py `is_time_exceeded` and the MCTS
simulation loop of `MCTSEngine.choose_move`) -/

/-- `is_time_exceeded(start_time, time_limit)`: `time_limit is not None and
(time.perf_counter() - start_time) >= time_limit`, as a function of the
elapsed time. -/
def is_time_exceeded (elapsed : ℚ) (time_limit : Option ℚ) : Bool :=
  match time_limit with
  | none => false
  | some limit => decide (elapsed ≥ limit)

/-- The exit condition of the `while not is_time_exceeded(start, time_limit)`
simulation loop of `MCTSEngine.choose_move` is eventually satisfied, for the
trace of elapsed times observed at the successive loop-condition checks. -/
def simLoopExits (trace : Nat → ℚ) (time_limit : Option ℚ) : Prop :=
  ∃ n, is_time_exceeded (trace n) time_limit = true

/-! ## Static evaluator (src/backend/app/engine/base_engine.py)

`BaseEngine.evaluate` and its repetition/drawish helpers, over a record
`EvalPos` of exactly the position queries they perform: side to move,
piece squares per (type, color), the legal-move count of the side to move,
castling rights, check status, the halfmove clock, the repetition flags,
the move-stack length and the history repetition count computed by the
FEN-history scan of `repetition_penalty`. -/

def PST_PAWN : List Int :=
  [0, 0, 0, 0, 0, 0, 0, 0,
   50, 50, 50, 50, 50, 50, 50, 50,
   10, 10, 20, 30, 30, 20, 10, 10,
   5, 5, 10, 25, 25, 10, 5, 5,
   0, 0, 0, 20, 20, 0, 0, 0,
   5, -5, -10, 0, 0, -10, -5, 5,
   5, 10, 10, -20, -20, 10, 10, 5,
   0, 0, 0, 0, 0, 0, 0, 0]

def PST_KNIGHT : List Int :=
  [-50, -40, -30, -30, -30, -30, -40, -50,
   -40, -20, 0, 0, 0, 0, -20, -40,
   -30, 0, 10, 15, 15, 10, 0, -30,
   -30, 5, 15, 20, 20, 15, 5, -30,
   -30, 0, 15, 20, 20, 15, 0, -30,
   -30, 5, 10, 15, 15, 10, 5, -30,
   -40, -20, 0, 5, 5, 0, -20, -40,
   -50, -40, -30, -30, -30, -30, -40, -50]

def PST_BISHOP : List Int :=
  [-20, -10, -10, -10, -10, -10, -10, -20,
   -10, 5, 0, 0, 0, 0, 5, -10,
   -10, 10, 10, 10, 10, 10, 10, -10,
   -10, 0, 10, 10, 10, 10, 0, -10,
   -10, 5, 5, 10, 10, 5, 5, -10,
   -10, 0, 5, 10, 10, 5, 0, -10,
   -10, 0, 0, 0, 0, 0, 0, -10,
   -20, -10, -10, -10, -10, -10, -10, -20]

def PST_ROOK : List Int :=
  [0, 0, 0, 0, 0, 0, 0, 0,
   5, 10, 10, 10, 10, 10, 10, 5,
   -5, 0, 0, 0, 0, 0, 0, -5,
   -5, 0, 0, 0, 0, 0, 0, -5,
   -5, 0, 0, 0, 0, 0, 0, -5,
   -5, 0, 0, 0, 0, 0, 0, -5,
   -5, 0, 0, 0, 0, 0, 0, -5,
   0, 0, 0, 5, 5, 0, 0, 0]

def PST_QUEEN : List Int :=
  [-20, -10, -10, -5, -5, -10, -10, -20,
   -10, 0, 0, 0, 0, 0, 0, -10,
   -10, 0, 5, 5, 5, 5, 0, -10,
   -5, 0, 5, 5, 5, 5, 0, -5,
   0, 0, 5, 5, 5, 5, 0, -5,
   -10, 5, 5, 5, 5, 5, 0, -10,
   -10, 0, 5, 0, 0, 0, 0, -10,
   -20, -10, -10, -5, -5, -10, -10, -20]

/-- `PIECE_PSTS` (the king has no table in the baseline evaluator). -/
def PIECE_PSTS : Nat → Option (List Int)
  | 1 => some PST_PAWN
  | 2 => some PST_KNIGHT
  | 3 => some PST_BISHOP
  | 4 => some PST_ROOK
  | 5 => some PST_QUEEN
  | _ => none

/-- `chess.square_mirror(square)`: vertical flip. -/
def square_mirror (sq : Nat) : Nat := sq ^^^ 56

/-- `mirror_for_color(square, color)` (color true = white). -/
def mirror_for_color (sq : Nat) (color : Bool) : Nat :=
  if color then sq else square_mirror sq

/-- Position record consumed by the baseline evaluator. -/
structure EvalPos where
  turn : Bool
  pieces : Nat → Bool → List Nat
  legalCount : Nat
  castlingW : Bool
  castlingB : Bool
  isCheck : Bool
  halfmoveClock : Nat
  isFivefold : Bool
  isRepetition3 : Bool
  canClaimThreefold : Bool
  moveStackLen : Nat
  historyRepCount : Nat

namespace BaseEngine

/-- The piece-square-table contribution of one color's pieces of one type. -/
def pstSum (pst : List Int) (squares : List Nat) (color : Bool) : Int :=
  (squares.map fun sq => pst.getD (mirror_for_color sq color) 0).sum

/-- The material + piece-square-table double loop of `BaseEngine.evaluate`
(white minus black, in the dict iteration order pawn..king). -/
def materialPstScore (p : EvalPos) : Int :=
  ([1, 2, 3, 4, 5, 6].map fun pt =>
    ([true, false].map fun color =>
      let pcs := p.pieces pt color
      let mult : Int := if color then 1 else -1
      (pcs.length : Int) * PIECE_VALUES pt * mult +
        match PIECE_PSTS pt with
        | some pst => pstSum pst pcs color * mult
        | none => 0).sum).sum

/-- `BaseEngine.repetition_penalty(board, current_eval)`; the FEN-history
occurrence count of the current position is the field `historyRepCount`. -/
def repetition_penalty (p : EvalPos) (current_eval : Option Int) : Int :=
  if p.isFivefold = true ∨ p.isRepetition3 = true ∨ p.canClaimThreefold = true then
    match current_eval with
    | some ce =>
        if ce > 200 then 6000 + min 2000 (Int.fdiv ce 2)
        else if ce < -200 then 800
        else 3000
    | none => 3000
  else if p.moveStackLen = 0 then 0
  else if p.historyRepCount ≥ 2 then
    match current_eval with
    | some ce => if ce > 100 then 4000 + min 1000 (Int.fdiv ce 3) else 3000
    | none => 3000
  else 0

/-- `BaseEngine.drawish_bias(board, current_eval)`. -/
def drawish_bias (p : EvalPos) (current_eval : Int) : Int :=
  let bias : Int := 0
  let bias :=
    if current_eval > 250 ∧ p.isCheck = false ∧ p.legalCount ≤ 2 then bias - 1200
    else bias
  let bias :=
    if p.halfmoveClock ≥ 80 ∧ current_eval > 200 then bias - 700 else bias
  let bias :=
    if p.isFivefold = true ∨ p.canClaimThreefold = true then
      if current_eval > 200 then bias - (5000 + min 2000 (Int.fdiv current_eval 2))
      else if current_eval < -150 then bias + 1200
      else bias
    else bias
  bias

/-- The side-to-move score of `BaseEngine.evaluate` before the repetition
penalty and drawish bias: material + piece-square tables + mobility +
castling-rights bonus, negated for black to move. -/
def preScore (p : EvalPos) : Int :=
  let score := materialPstScore p
  let mobility : Int := p.legalCount
  let score := score + (if p.turn then 2 * mobility else -(2 * mobility))
  let score := score + (if p.castlingW then 20 else 0)
  let score := score - (if p.castlingB then 20 else 0)
  if p.turn then score else -score

/-- `BaseEngine.evaluate(board)`. -/
def evaluate (p : EvalPos) : Int :=
  let side_eval := preScore p
  let side_eval1 := side_eval - repetition_penalty p (some side_eval)
  side_eval1 + drawish_bias p side_eval1

/-- The combined repetition-penalty and drawish-bias contribution to
`BaseEngine.evaluate` (so `evaluate p = preScore p + evalAdjust p`). -/
def evalAdjust (p : EvalPos) : Int :=
  let s := preScore p
  let s1 := s - repetition_penalty p (some s)
  s1 + drawish_bias p s1 - s

end BaseEngine

/-! ## Concrete instances used by witnesses and counterexamples -/

/-- A table holding one entry (key 5, score 42, depth 3, Exact) at index 5. -/
def ttW : TranspositionTable :=
  ⟨1024, fun i => if i = 5 then some ⟨5, 42, 3, TTEntry.EXACT, none⟩ else none, 0, 0, 0⟩

/-- An empty table of the minimum size. -/
def ttEmpty : TranspositionTable := ⟨1024, fun _ => none, 0, 0, 0⟩

/-- A quiet leaf position of the given side-to-move value. -/
def leafNode (v : Int) : GTree :=
  .node v 0 false false false false false false false 0 0
    (fun _ => false) (fun _ => false) []

def mvA : GMove := { id := 1 }
def mvB : GMove := { id := 2 }
def mvA1 : GMove := { id := 3 }

def treeA : GTree :=
  .node (-5) 0 false false false false false false false 0 0
    (fun _ => false) (fun _ => false) [(mvA1, leafNode 7)]

def treeRoot : GTree :=
  .node 0 0 false false false false false false false 0 0
    (fun _ => false) (fun _ => false) [(mvA, treeA), (mvB, leafNode (-10))]

/-- Root board of the timeout scenario: two root moves; at depth 1 move
`mvB` scores 10 and `mvA` scores 5; at depth 2 move `mvA` scores 7. -/
def boardC1 : EBoard := ⟨treeRoot, true, []⟩

/-- A monotone clock: the time limit is exceeded from the k-th
`is_time_exceeded` check on. -/
def oracleStep (k : Nat) : Nat → Bool := fun n => decide (k ≤ n)

/-- A quiet leaf position with the given side-to-move value and Zobrist
hash. -/
def leafNodeH (v : Int) (h : Nat) : GTree :=
  .node v h false false false false false false false 0 0
    (fun _ => false) (fun _ => false) []

/-- The position after `mvA` in the hash-distinct timeout scenario: value
-5 for the side to move, one quiet reply `mvA1` leading to a leaf of value
7. -/
def treeA4 : GTree :=
  .node (-5) 2 false false false false false false false 0 0
    (fun _ => false) (fun _ => false) [(mvA1, leafNodeH 7 4)]

/-- Root of the timeout scenario for the transposition-table engines: the
same shape as `treeRoot` but with pairwise distinct Zobrist hashes, so no
two positions collide in the table.  At depth 1 move `mvB` scores 10 and
`mvA` scores 5; at depth 2 move `mvA` scores 7. -/
def treeRoot4 : GTree :=
  .node 0 1 false false false false false false false 0 0
    (fun _ => false) (fun _ => false) [(mvA, treeA4), (mvB, leafNodeH (-10) 3)]

/-- Root board of the timeout scenario for Level4 and Ultimate. -/
def boardC14 : EBoard := ⟨treeRoot4, true, []⟩

/-- A position with zero legal moves. -/
def boardEmpty : EBoard := ⟨leafNode 0, true, []⟩

/-- Piece squares of the standard chess starting position, in python-chess
numbering (a1 = 0, rank * 8 + file): pawns on ranks 2 and 7, the back
ranks as usual. -/
def startPieces : Nat → Bool → List Nat := fun pt c =>
  match pt, c with
  | 1, true => [8, 9, 10, 11, 12, 13, 14, 15]
  | 1, false => [48, 49, 50, 51, 52, 53, 54, 55]
  | 2, true => [1, 6]
  | 2, false => [57, 62]
  | 3, true => [2, 5]
  | 3, false => [58, 61]
  | 4, true => [0, 7]
  | 4, false => [56, 63]
  | 5, true => [3]
  | 5, false => [59]
  | 6, true => [4]
  | 6, false => [60]
  | _, _ => []

/-- The standard starting position, white to move: non-terminal, not in
check, exactly 20 legal moves, both castling rights, fresh clocks and
history. -/
def startP : EvalPos :=
  ⟨true, startPieces, 20, true, true, false, 0, false, false, false, 0, 0⟩

/-- The turn-flipped mirror of `startP`: same placement, black to move — a
legal, non-terminal position in which black also has exactly 20 legal
moves and is not in check. -/
def startQ : EvalPos := { startP with turn := false }

/-- A non-terminal leaf position for the CNN fallback scenario. -/
def leafT6 : GTree :=
  .node 123 9 false false false false false false false 0 0
    (fun _ => false) (fun _ => false) []

/-- A learned evaluator that always raises. -/
def cnnFail : GTree → Except Unit ℚ := fun _ => Except.error ()

/-- Unvisited child: value 0, prior 1/2. -/
noncomputable def childA : MCTS.MCTSNodeE := .mk (leafNode 0) (1/2) none [] 0 0

/-- Visited child: 3 visits, value 399/400, prior 1/2. -/
noncomputable def childB : MCTS.MCTSNodeE := .mk (leafNode 0) (1/2) none [] 3 (1197/400)

/-- Expanded parent with 3 visits and the two children above. -/
noncomputable def parentN : MCTS.MCTSNodeE :=
  .mk (leafNode 0) 1 none [(mvA, childA), (mvB, childB)] 3 0

/-- The selection score exactly as the claim words it: square root of the
parent's visit count, without the `+ 1` the code applies.  Defined from the
spec for comparison with `MCTS.puctScore`. -/
noncomputable def claimPuctScore (c_puct : ℝ) (parentVisits : ℕ)
    (child : MCTS.MCTSNodeE) : ℝ :=
  child.value + c_puct * child.prior * Real.sqrt parentVisits / (1 + child.visit_count)

/-! ## Theorems -/

/-- C2: `probe(key, depth, alpha, beta)` misses on an empty slot, on a key
mismatch, and on stored depth < requested depth; on a matching entry at
sufficient depth an Exact score is always returned, a LowerBound score only
when it is ≥ beta, an UpperBound score only when it is ≤ alpha, and
otherwise the probe returns None. -/
theorem tt_probe_spec (tt : TranspositionTable) (key depth : Nat) (alpha beta : Int) :
    (tt.table (tt.index key) = none → (tt.probe key depth alpha beta).1 = none) ∧
    (∀ e, tt.table (tt.index key) = some e → e.hash_key ≠ key →
      (tt.probe key depth alpha beta).1 = none) ∧
    (∀ e, tt.table (tt.index key) = some e → e.depth < depth →
      (tt.probe key depth alpha beta).1 = none) ∧
    (∀ e, tt.table (tt.index key) = some e → e.hash_key = key → depth ≤ e.depth →
      (e.flag = TTEntry.EXACT →
          (tt.probe key depth alpha beta).1 = some (e.score, TTEntry.EXACT)) ∧
      (e.flag = TTEntry.LOWER_BOUND → e.score ≥ beta →
          (tt.probe key depth alpha beta).1 = some (e.score, TTEntry.LOWER_BOUND)) ∧
      (e.flag = TTEntry.UPPER_BOUND → e.score ≤ alpha →
          (tt.probe key depth alpha beta).1 = some (e.score, TTEntry.UPPER_BOUND)) ∧
      (e.flag ≠ TTEntry.EXACT →
        ¬(e.flag = TTEntry.LOWER_BOUND ∧ e.score ≥ beta) →
        ¬(e.flag = TTEntry.UPPER_BOUND ∧ e.score ≤ alpha) →
          (tt.probe key depth alpha beta).1 = none)) := by
  refine ⟨?_, ?_, ?_, ?_⟩
  · intro h
    simp [TranspositionTable.probe, h]
  · intro e he hk
    simp [TranspositionTable.probe, he, hk]
  · intro e he hd
    rcases eq_or_ne e.hash_key key with hk | hk <;>
      simp [TranspositionTable.probe, he, hk, hd]
  · intro e he hk hd
    have hnd : ¬ e.depth < depth := by omega
    refine ⟨?_, ?_, ?_, ?_⟩
    · intro hf
      simp [TranspositionTable.probe, he, hk, hnd, hf]
    · intro hf hs
      simp [TranspositionTable.probe, he, hk, hnd, hf, hs,
        TTEntry.EXACT, TTEntry.LOWER_BOUND]
    · intro hf hs
      simp [TranspositionTable.probe, he, hk, hnd, hf, hs,
        TTEntry.EXACT, TTEntry.LOWER_BOUND, TTEntry.UPPER_BOUND]
    · intro h1 h2 h3
      simp [TranspositionTable.probe, he, hk, hnd, h1, h2, h3]

/-- Witness for C2: probing the one-entry table at its key, at a shallower
depth, yields the stored Exact score. -/
theorem tt_probe_spec_witness :
    (ttW.probe 5 2 0 10).1 = some (42, TTEntry.EXACT) :=
  ((tt_probe_spec ttW 5 2 0 10).2.2.2 ⟨5, 42, 3, TTEntry.EXACT, none⟩
    (by decide) rfl (by decide)).1 rfl

/-- C5: `store` writes the new entry on an empty slot, overwrites on a key
match, overwrites when the incoming depth is ≥ the existing depth, and
otherwise keeps the deeper existing entry unchanged. -/
theorem tt_store_policy (tt : TranspositionTable) (key : Nat) (score : Int)
    (depth : Nat) (flag : Nat) (bm : Option Nat) :
    (tt.table (tt.index key) = none →
      (tt.store key score depth flag bm).table (tt.index key) =
        some ⟨key, score, depth, flag, bm⟩) ∧
    (∀ e, tt.table (tt.index key) = some e → e.hash_key = key →
      (tt.store key score depth flag bm).table (tt.index key) =
        some ⟨key, score, depth, flag, bm⟩) ∧
    (∀ e, tt.table (tt.index key) = some e → e.depth ≤ depth →
      (tt.store key score depth flag bm).table (tt.index key) =
        some ⟨key, score, depth, flag, bm⟩) ∧
    (∀ e, tt.table (tt.index key) = some e → e.hash_key ≠ key → depth < e.depth →
      (tt.store key score depth flag bm).table (tt.index key) = some e) := by
  refine ⟨?_, ?_, ?_, ?_⟩
  · intro h
    simp [TranspositionTable.store, h]
  · intro e he hk
    simp [TranspositionTable.store, he, hk]
  · intro e he hd
    have hor : e.hash_key = key ∨ depth ≥ e.depth := Or.inr hd
    simp [TranspositionTable.store, he, hor]
  · intro e he hk hd
    have hor : ¬(e.hash_key = key ∨ depth ≥ e.depth) := by
      push_neg
      exact ⟨hk, by omega⟩
    simp [TranspositionTable.store, he, hor]

/-- Witness for C5: storing at a colliding index with a smaller depth keeps
the deeper existing entry. -/
theorem tt_store_policy_witness :
    (ttW.store 1029 7 2 TTEntry.EXACT none).table (ttW.index 1029) =
      some ⟨5, 42, 3, TTEntry.EXACT, none⟩ :=
  (tt_store_policy ttW 1029 7 2 TTEntry.EXACT none).2.2.2
    ⟨5, 42, 3, TTEntry.EXACT, none⟩ (by decide) (by decide) (by decide)

/-- The doubling loop stays at 1 when there are no entries to cover. -/
theorem ttSizeLoop_one_of_nonpos (n : Int) (hn : n ≤ 0) : ttSizeLoop n 1 = 1 := by
  rw [ttSizeLoop]
  rw [dif_neg]
  rintro ⟨-, h2⟩
  omega

/-- Counterexample for C8: constructing a table with size 0 MB (and with a
negative size) succeeds — no failure occurs; the entry count is clamped to
the 1024-entry minimum and the table starts empty and usable. -/
theorem tt_init_nonpositive_size_succeeds :
    (TranspositionTable.init 0).size = 1024 ∧
    (TranspositionTable.init (-5)).size = 1024 ∧
    (TranspositionTable.init 0).table ((TranspositionTable.init 0).index 7) = none := by
  refine ⟨?_, ?_, ?_⟩
  · show max 1024 (ttSizeLoop (Int.fdiv (0 * 1024 * 1024) 24) 1) = 1024
    rw [ttSizeLoop_one_of_nonpos _ (by decide)]
    decide
  · show max 1024 (ttSizeLoop (Int.fdiv ((-5) * 1024 * 1024) 24) 1) = 1024
    rw [ttSizeLoop_one_of_nonpos _ (by decide)]
    decide
  · rfl

/-- C8 (amended): construction with a non-positive `size_mb` does not fail;
the power-of-two sizing loop stays at 1 and the `max(1024, ...)` clamp
yields the minimum 1024-entry table, empty and immediately usable, so no
configuration failure can surface at construction or search time. -/
theorem tt_init_nonpositive_clamps (m : Int) (hm : m ≤ 0) :
    (TranspositionTable.init m).size = 1024 ∧
    (∀ i, (TranspositionTable.init m).table i = none) := by
  have hprod : m * 1024 * 1024 ≤ 0 := by nlinarith
  have hfd : Int.fdiv (m * 1024 * 1024) 24 ≤ 0 := by
    rcases hprod.lt_or_eq with h | h
    · exact le_of_lt (Int.fdiv_neg' h (by norm_num))
    · rw [h]
      decide
  constructor
  · show max 1024 (ttSizeLoop (Int.fdiv (m * 1024 * 1024) 24) 1) = 1024
    rw [ttSizeLoop_one_of_nonpos _ hfd]
    decide
  · intro i
    rfl

/-- Witness for the amended C8 at `size_mb = 0`. -/
theorem tt_init_nonpositive_clamps_witness :
    (TranspositionTable.init 0).size = 1024 ∧
    (∀ i, (TranspositionTable.init 0).table i = none) :=
  tt_init_nonpositive_clamps 0 (by decide)

/-- Elapsed-time traces that advance by at least δ per simulation grow
linearly. -/
theorem trace_lower_bound (trace : Nat → ℚ) (δ : ℚ)
    (hstep : ∀ n, trace n + δ ≤ trace (n + 1)) :
    ∀ n, trace 0 + n * δ ≤ trace n := by
  intro n
  induction n with
  | zero => simp
  | succ k ih =>
    have := hstep k
    push_cast
    nlinarith

/-- C10: with a finite positive `time_limit` the simulation loop of
`MCTSEngine.choose_move` exits — its `is_time_exceeded` condition becomes
true after finitely many checks whenever each simulation consumes at least
some positive time δ; with `time_limit = None` the exit condition is false
at every check, so the loop never terminates on a position that is not game
over. -/
theorem mcts_sim_loop_exit (trace : Nat → ℚ) :
    (∀ l δ : ℚ, 0 < l → 0 < δ → 0 ≤ trace 0 →
      (∀ n, trace n + δ ≤ trace (n + 1)) → simLoopExits trace (some l)) ∧
    (¬ simLoopExits trace none) := by
  constructor
  · intro l δ hl hδ h0 hstep
    obtain ⟨n, hn⟩ := exists_nat_ge (l / δ)
    refine ⟨n, ?_⟩
    have hbound := trace_lower_bound trace δ hstep n
    have hln : l ≤ n * δ := by
      rw [div_le_iff₀ hδ] at hn
      linarith
    simp only [is_time_exceeded, decide_eq_true_eq]
    linarith
  · rintro ⟨n, hn⟩
    simp [is_time_exceeded] at hn

/-- Witness for C10: the trace advancing by one time unit per check exits
the loop under a positive limit, and never exits under `None`. -/
theorem mcts_sim_loop_exit_witness :
    simLoopExits (fun n => (n : ℚ)) (some 1) ∧
    ¬ simLoopExits (fun n => (n : ℚ)) none :=
  ⟨(mcts_sim_loop_exit (fun n => (n : ℚ))).1 1 1 one_pos one_pos (by norm_num)
      (fun n => by push_cast; linarith),
    (mcts_sim_loop_exit (fun n => (n : ℚ))).2⟩

/-- `BaseEngine.evaluate` decomposes into the raw side-to-move score and
the repetition/drawish adjustment. -/
theorem evaluate_decomposition (p : EvalPos) :
    BaseEngine.evaluate p = BaseEngine.preScore p + BaseEngine.evalAdjust p := by
  simp [BaseEngine.evaluate, BaseEngine.evalAdjust]

/-- Counterexample for C9: the standard starting position and its
turn-flipped mirror — both realizable, non-terminal, check-free, with 20
legal moves each.  The placement-symmetric material/PST terms cancel and
both evaluations are +40 (the side to move's mobility term), so the sum is
80, yet the repetition-penalty and drawish-bias contributions are 0 on
both sides: the deviation is not bounded by those terms — it is the
mobility term that survives the sign flip. -/
theorem evaluate_mirror_sum_not_bias_bounded :
    BaseEngine.evaluate startP + BaseEngine.evaluate startQ = 80 ∧
    BaseEngine.evalAdjust startP = 0 ∧
    BaseEngine.evalAdjust startQ = 0 ∧
    ¬((BaseEngine.evaluate startP + BaseEngine.evaluate startQ).natAbs ≤
        (BaseEngine.evalAdjust startP).natAbs +
        (BaseEngine.evalAdjust startQ).natAbs) := by
  refine ⟨by decide, by decide, by decide, by decide⟩

/-- C9 (amended): for a position and its turn-flipped mirror (same
placement and castling rights, opposite side to move), the evaluations sum
to exactly twice the two sides' mobility counts plus the repetition-penalty
and drawish-bias contributions of the two positions; the deviation from 0
is bounded only when the mobility term is included. -/
theorem evaluate_mirror_sum (P Q : EvalPos)
    (hturn : Q.turn = !P.turn) (hpieces : Q.pieces = P.pieces)
    (hcw : Q.castlingW = P.castlingW) (hcb : Q.castlingB = P.castlingB) :
    BaseEngine.evaluate P + BaseEngine.evaluate Q =
      2 * ((P.legalCount : Int) + (Q.legalCount : Int)) +
        BaseEngine.evalAdjust P + BaseEngine.evalAdjust Q := by
  have hm : BaseEngine.materialPstScore Q = BaseEngine.materialPstScore P := by
    simp [BaseEngine.materialPstScore, hpieces]
  have key : BaseEngine.preScore P + BaseEngine.preScore Q =
      2 * ((P.legalCount : Int) + (Q.legalCount : Int)) := by
    cases hPt : P.turn
    · have hQt : Q.turn = true := by rw [hturn, hPt]; rfl
      simp only [BaseEngine.preScore, hm, hPt, hQt, hcw, hcb,
        Bool.false_eq_true, if_false, if_true]
      ring
    · have hQt : Q.turn = false := by rw [hturn, hPt]; rfl
      simp only [BaseEngine.preScore, hm, hPt, hQt, hcw, hcb,
        Bool.false_eq_true, if_false, if_true]
      ring
  rw [evaluate_decomposition P, evaluate_decomposition Q]
  linarith [key]

/-- Witness for the amended C9 at the starting-position mirror pair:
40 + 40 = 2·(20+20) + 0 + 0. -/
theorem evaluate_mirror_sum_witness :
    BaseEngine.evaluate startP + BaseEngine.evaluate startQ =
      2 * ((startP.legalCount : Int) + (startQ.legalCount : Int)) +
        BaseEngine.evalAdjust startP + BaseEngine.evalAdjust startQ :=
  evaluate_mirror_sum startP startQ (by decide) rfl rfl rfl

/-- With no root moves, the Level3 depth loop never commits: the initial
no-move/bottom-score state survives every iteration. -/
theorem l3_depthLoop_nil_ordered (oracle : Nat → Bool) (fuel : Nat) :
    ∀ (ds : List Nat) (st : Level3.IterState), st.bestMove = none →
      (Level3.depthLoop oracle fuel [] ds st).bestMove = none ∧
      (Level3.depthLoop oracle fuel [] ds st).bestScore = st.bestScore ∧
      (Level3.depthLoop oracle fuel [] ds st).searchedDepth = st.searchedDepth := by
  intro ds
  induction ds with
  | nil =>
    intro st h
    exact ⟨h, rfl, rfl⟩
  | cons d rest ih =>
    intro st h
    rw [Level3.depthLoop]
    by_cases ho : oracle st.tIdx
    · simp [ho, h]
    · simp only [ho, Bool.false_eq_true, if_false, Level3.rootLoop, h]
      exact ih _ rfl

/-- C4 (amended): with zero legal moves the fixed-depth and
iterative-deepening alpha-beta tiers return a `SearchResult` with no move
and the sentinel score -10000000 (not 0): no iteration ever updates the
initial best. -/
theorem no_legal_moves_result (oracle : Nat → Bool) (fuel : Nat) (b : EBoard)
    (h : b.cur.children = []) :
    (Level3.chooseMove oracle fuel b).1.move = none ∧
    (Level3.chooseMove oracle fuel b).1.score = -10000000 ∧
    (Level5.chooseMove fuel b).1.move = none ∧
    (Level5.chooseMove fuel b).1.score = -10000000 := by
  have hord : orderMovesBase (legalMovesE b) = [] := by
    simp [legalMovesE, h, orderMovesBase, sortRevBy]
  have h3 := l3_depthLoop_nil_ordered oracle fuel [1, 2, 3, 4]
    ⟨none, -10000000, 0, 0, 0, b⟩ rfl
  refine ⟨?_, ?_, ?_, ?_⟩
  · show (Level3.depthLoop oracle fuel (orderMovesBase (legalMovesE b)) [1, 2, 3, 4]
      ⟨none, -10000000, 0, 0, 0, b⟩).bestMove = none
    rw [hord]
    exact h3.1
  · show (Level3.depthLoop oracle fuel (orderMovesBase (legalMovesE b)) [1, 2, 3, 4]
      ⟨none, -10000000, 0, 0, 0, b⟩).bestScore = -10000000
    rw [hord]
    exact h3.2.1
  · show (Level5.rootLoop fuel 3 (orderMovesBase (legalMovesE b))
      none (-10000000) 0 b).1.1 = none
    rw [hord]
    rfl
  · show (Level5.rootLoop fuel 3 (orderMovesBase (legalMovesE b))
      none (-10000000) 0 b).1.2.1 = -10000000
    rw [hord]
    rfl

/-- Counterexample for C4: on a position with zero legal moves, Level3's
`choose_move` returns no move but score -10000000, not score 0. -/
theorem l3_no_legal_moves_score_not_zero :
    (Level3.chooseMove (fun _ => false) 4 boardEmpty).1.move = none ∧
    (Level3.chooseMove (fun _ => false) 4 boardEmpty).1.score = -10000000 ∧
    (Level3.chooseMove (fun _ => false) 4 boardEmpty).1.score ≠ 0 := by
  refine ⟨by decide, by decide, by decide⟩

/-- Witness for the amended C4 at the concrete empty position. -/
theorem no_legal_moves_result_witness :
    (Level3.chooseMove (fun _ => false) 4 boardEmpty).1.move = none ∧
    (Level3.chooseMove (fun _ => false) 4 boardEmpty).1.score = -10000000 ∧
    (Level5.chooseMove 4 boardEmpty).1.move = none ∧
    (Level5.chooseMove 4 boardEmpty).1.score = -10000000 :=
  no_legal_moves_result (fun _ => false) 4 boardEmpty rfl

/-- `board.pop()` undoes `board.push(move)` exactly. -/
theorem push_pop (m : GMove) (b : EBoard) : popB (pushB m b) = b := rfl

/-- The Level3 quiescence capture loop leaves the board as it found it. -/
theorem l3_qloop_board (q : EBoard → Int → Int → Nat → Int × EBoard × Nat)
    (hq : ∀ b a bb n, (q b a bb n).2.1 = b) :
    ∀ ms b a bb n, (Level3.qloop q ms b a bb n).2.1 = b := by
  intro ms
  induction ms with
  | nil => intro b a bb n; rfl
  | cons m rest ih =>
    intro b a bb n
    rw [Level3.qloop]
    cases hcap : m.isCapture
    · simp only [hcap, Bool.not_false, if_true]
      exact ih b a bb n
    · simp only [hcap, Bool.not_true, Bool.false_eq_true, if_false]
      rw [hq, push_pop]
      split
      · rfl
      · exact ih _ _ _ _

/-- Level3 quiescence leaves the board as it found it. -/
theorem l3_quiescence_board :
    ∀ fuel b a bb n, (Level3.quiescence fuel b a bb n).2.1 = b := by
  intro fuel
  induction fuel with
  | zero => intro b a bb n; rfl
  | succ k ih =>
    intro b a bb n
    rw [Level3.quiescence]
    dsimp only
    split
    · rfl
    · exact l3_qloop_board _ ih _ _ _ _ _

/-- The Level3 alpha-beta move loop leaves the board as it found it. -/
theorem l3_abloop_board (oracle : Nat → Bool)
    (rec : EBoard → Int → Int → Nat → Nat → Int × EBoard × Nat × Nat)
    (hrec : ∀ b a bb t n, (rec b a bb t n).2.1 = b) :
    ∀ ms b a bb t n, (Level3.abloop oracle rec ms b a bb t n).2.1 = b := by
  intro ms
  induction ms with
  | nil => intro b a bb t n; rfl
  | cons m rest ih =>
    intro b a bb t n
    rw [Level3.abloop]
    try dsimp only
    rw [hrec, push_pop]
    repeat' split
    all_goals first | rfl | exact ih _ _ _ _ _

/-- Level3 alphabeta leaves the board as it found it. -/
theorem l3_alphabeta_board (oracle : Nat → Bool) :
    ∀ fuel b d a bb t n, (Level3.alphabeta oracle fuel b d a bb t n).2.1 = b := by
  intro fuel
  induction fuel with
  | zero => intro b d a bb t n; rfl
  | succ k ih =>
    intro b d a bb t n
    rw [Level3.alphabeta]
    dsimp only
    split
    · exact l3_quiescence_board (k + 1) b a bb n
    · exact l3_abloop_board oracle _ (fun b a bb t n => ih b (d - 1) a bb t n) _ _ _ _ _ _

/-- The Level3 root-move loop leaves the board as it found it. -/
theorem l3_rootLoop_board (oracle : Nat → Bool) (fuel depth : Nat) :
    ∀ ms best b t tn, (Level3.rootLoop oracle fuel depth ms best b t tn).2.1 = b := by
  intro ms
  induction ms with
  | nil => intro best b t tn; rfl
  | cons m rest ih =>
    intro best b t tn
    rw [Level3.rootLoop]
    split
    · rfl
    · dsimp only
      rw [l3_alphabeta_board, push_pop]
      exact ih _ _ _ _

/-- The Level3 iterative-deepening loop leaves the board as it found it. -/
theorem l3_depthLoop_board (oracle : Nat → Bool) (fuel : Nat) (ordered : List GMove) :
    ∀ ds st, (Level3.depthLoop oracle fuel ordered ds st).board = st.board := by
  intro ds
  induction ds with
  | nil => intro st; rfl
  | cons d rest ih =>
    intro st
    rw [Level3.depthLoop]
    split
    · rfl
    · dsimp only
      split
      · rw [ih]
        exact l3_rootLoop_board oracle fuel d ordered _ _ _ _
      · rw [ih]
        exact l3_rootLoop_board oracle fuel d ordered _ _ _ _

/-- `Level3Engine.choose_move` returns the borrowed board unchanged. -/
theorem l3_chooseMove_board (oracle : Nat → Bool) (fuel : Nat) (b : EBoard) :
    (Level3.chooseMove oracle fuel b).2 = b :=
  l3_depthLoop_board oracle fuel _ [1, 2, 3, 4] ⟨none, -10000000, 0, 0, 0, b⟩

/-- The Level5 alpha-beta move loop leaves the board as it found it. -/
theorem l5_abloop_board (rec : EBoard → Int → Int → (Int × Nat) × EBoard)
    (hrec : ∀ b a bb, (rec b a bb).2 = b) :
    ∀ ms b best a bb n, (Level5.abloop rec ms b best a bb n).2 = b := by
  intro ms
  induction ms with
  | nil => intro b best a bb n; rfl
  | cons m rest ih =>
    intro b best a bb n
    rw [Level5.abloop]
    try dsimp only
    rw [hrec, push_pop]
    repeat' split
    all_goals first | rfl | exact ih _ _ _ _ _

/-- Level5 alphabeta leaves the board as it found it. -/
theorem l5_alphabeta_board :
    ∀ fuel b d a bb, (Level5.alphabeta fuel b d a bb).2 = b := by
  intro fuel
  induction fuel with
  | zero => intro b d a bb; rfl
  | succ k ih =>
    intro b d a bb
    rw [Level5.alphabeta]
    split
    · rfl
    · exact l5_abloop_board _ (fun b a bb => ih b (d - 1) a bb) _ _ _ _ _ _

/-- The Level5 root loop leaves the board as it found it. -/
theorem l5_rootLoop_board (fuel depth : Nat) :
    ∀ ms bm bs tn b, (Level5.rootLoop fuel depth ms bm bs tn b).2 = b := by
  intro ms
  induction ms with
  | nil => intro bm bs tn b; rfl
  | cons m rest ih =>
    intro bm bs tn b
    rw [Level5.rootLoop]
    try dsimp only
    rw [l5_alphabeta_board, push_pop]
    split
    · exact ih _ _ _ _
    · exact ih _ _ _ _

/-- `Level5Engine.choose_move` returns the borrowed board unchanged. -/
theorem l5_chooseMove_board (fuel : Nat) (b : EBoard) :
    (Level5.chooseMove fuel b).2 = b :=
  l5_rootLoop_board fuel 3 _ none (-10000000) 0 b

/-- The Level4 quiescence capture loop leaves the board as it found it. -/
theorem l4_qloop_board (q : EBoard → Int → Int → Nat → Int × EBoard × Nat)
    (hq : ∀ b a bb n, (q b a bb n).2.1 = b) :
    ∀ ms b a bb n, (Level4.qloop q ms b a bb n).2.1 = b := by
  intro ms
  induction ms with
  | nil => intro b a bb n; rfl
  | cons m rest ih =>
    intro b a bb n
    rw [Level4.qloop]
    cases hcap : m.isCapture
    · simp only [hcap, Bool.not_false, if_true]
      exact ih b a bb n
    · simp only [hcap, Bool.not_true, Bool.false_eq_true, if_false]
      try dsimp only
      rw [hq, push_pop]
      repeat' split
      all_goals first | rfl | exact ih _ _ _ _

/-- Level4 quiescence leaves the board as it found it. -/
theorem l4_quiescence_board :
    ∀ fuel b a bb n, (Level4.quiescence fuel b a bb n).2.1 = b := by
  intro fuel
  induction fuel with
  | zero => intro b a bb n; rfl
  | succ k ih =>
    intro b a bb n
    rw [Level4.quiescence]
    try dsimp only
    repeat' split
    all_goals first | rfl | exact l4_qloop_board _ ih _ _ _ _ _

/-- The Level4 alpha-beta move loop leaves the board as it found it. -/
theorem l4_abloop_board (oracle : Nat → Bool)
    (rec : Level4.SState → Int → Int → Int × Level4.SState)
    (hrec : ∀ s a bb, (rec s a bb).2.board = s.board) :
    ∀ ms st best a bb, (Level4.abloop oracle rec ms st best a bb).2.board = st.board := by
  intro ms
  induction ms with
  | nil => intro st best a bb; rfl
  | cons m rest ih =>
    intro st best a bb
    rw [Level4.abloop]
    try dsimp only
    rw [hrec]
    try dsimp only
    rw [push_pop]
    repeat' split
    all_goals first | rfl | exact ih _ _ _ _

/-- Level4 alphabeta leaves the board as it found it (it mutates only the
table and the counters). -/
theorem l4_alphabeta_board (oracle : Nat → Bool) :
    ∀ fuel st d a bb, (Level4.alphabeta oracle fuel st d a bb).2.board = st.board := by
  intro fuel
  induction fuel with
  | zero => intro st d a bb; rfl
  | succ k ih =>
    intro st d a bb
    rw [Level4.alphabeta]
    try dsimp only
    have habl := l4_abloop_board oracle
      (fun s a bb => Level4.alphabeta oracle k s (d - 1) a bb)
      (fun s a bb => ih s (d - 1) a bb)
    repeat' split
    all_goals simp only [l4_quiescence_board, habl]

/-- The Level4 root-move loop leaves the board as it found it. -/
theorem l4_rootLoop_board (oracle : Nat → Bool) (fuel depth : Nat) :
    ∀ ms best st tn, (Level4.rootLoop oracle fuel depth ms best st tn).2.1.board = st.board := by
  intro ms
  induction ms with
  | nil => intro best st tn; rfl
  | cons m rest ih =>
    intro best st tn
    rw [Level4.rootLoop]
    try dsimp only
    rw [l4_alphabeta_board]
    try dsimp only
    rw [push_pop]
    repeat' split
    all_goals first | rfl | exact ih _ _ _

/-- The Level4 iterative-deepening loop leaves the board as it found it. -/
theorem l4_depthLoop_board (oracle : Nat → Bool) (fuel : Nat) (ordered : List GMove) :
    ∀ ds it, (Level4.depthLoop oracle fuel ordered ds it).st.board = it.st.board := by
  intro ds
  induction ds with
  | nil => intro it; rfl
  | cons d rest ih =>
    intro it
    rw [Level4.depthLoop]
    try dsimp only
    repeat' split
    all_goals try rfl
    all_goals rw [ih]; exact l4_rootLoop_board oracle fuel d ordered _ _ _

/-- `Level4Engine.choose_move` returns the borrowed board unchanged. -/
theorem l4_chooseMove_board (oracle : Nat → Bool) (fuel : Nat) (b : EBoard)
    (tt : TranspositionTable) :
    (Level4.chooseMove oracle fuel b tt).2.1 = b :=
  l4_depthLoop_board oracle fuel _ [1, 2, 3, 4, 5, 6]
    ⟨none, -10000000, 0, 0, ⟨b, 0, 0, tt.clear⟩⟩

/-- The Ultimate quiescence tactical loop leaves the board as it found it. -/
theorem ult_qloop_board (q : EBoard → Int → Int → Nat → Nat → Int × EBoard × Nat × Nat)
    (hq : ∀ b a bb n qn, (q b a bb n qn).2.1 = b) (in_check : Bool) (sp : Int) :
    ∀ ms b a bb n qn, (Ultimate.qloop q in_check sp ms b a bb n qn).2.1 = b := by
  intro ms
  induction ms with
  | nil => intro b a bb n qn; rfl
  | cons m rest ih =>
    intro b a bb n qn
    rw [Ultimate.qloop]
    try dsimp only
    rw [hq]
    try dsimp only
    rw [push_pop]
    repeat' split
    all_goals first | rfl | exact ih _ _ _ _ _

/-- Ultimate quiescence leaves the board as it found it. -/
theorem ult_quiescence_board :
    ∀ fuel b a bb n qn qd, (Ultimate.quiescence fuel b a bb n qn qd).2.1 = b := by
  intro fuel
  induction fuel with
  | zero => intro b a bb n qn qd; rfl
  | succ k ih =>
    intro b a bb n qn qd
    rw [Ultimate.quiescence]
    try dsimp only
    repeat' split
    all_goals first
      | rfl
      | exact ult_qloop_board _ (fun b a bb n qn => ih b a bb n qn _) _ _ _ _ _ _ _ _

/-- The Ultimate alpha-beta move loop leaves the board as it found it. -/
theorem ult_abloop_board (oracle : Nat → Bool)
    (rec : Ultimate.UState → Int → Int → Int × Ultimate.UState)
    (hrec : ∀ s a bb, (rec s a bb).2.board = s.board) :
    ∀ ms st best a bb, (Ultimate.abloop oracle rec ms st best a bb).2.board = st.board := by
  intro ms
  induction ms with
  | nil => intro st best a bb; rfl
  | cons m rest ih =>
    intro st best a bb
    rw [Ultimate.abloop]
    try dsimp only
    rw [hrec]
    try dsimp only
    rw [push_pop]
    repeat' split
    all_goals first | rfl | exact ih _ _ _ _

/-- Ultimate alphabeta leaves the board as it found it. -/
theorem ult_alphabeta_board (oracle : Nat → Bool) :
    ∀ fuel st d a bb, (Ultimate.alphabeta oracle fuel st d a bb).2.board = st.board := by
  intro fuel
  induction fuel with
  | zero => intro st d a bb; rfl
  | succ k ih =>
    intro st d a bb
    rw [Ultimate.alphabeta]
    try dsimp only
    have habl := ult_abloop_board oracle
      (fun s a bb => Ultimate.alphabeta oracle k s (d - 1) a bb)
      (fun s a bb => ih s (d - 1) a bb)
    repeat' split
    all_goals simp only [ult_quiescence_board, habl]

/-- The Ultimate root-move loop leaves the board as it found it. -/
theorem ult_rootLoop_board (oracle : Nat → Bool) (fuel depth : Nat) :
    ∀ ms best st tn tqn,
      (Ultimate.rootLoop oracle fuel depth ms best st tn tqn).2.1.board = st.board := by
  intro ms
  induction ms with
  | nil => intro best st tn tqn; rfl
  | cons m rest ih =>
    intro best st tn tqn
    rw [Ultimate.rootLoop]
    try dsimp only
    rw [ult_alphabeta_board]
    try dsimp only
    rw [push_pop]
    repeat' split
    all_goals first | rfl | exact ih _ _ _ _

/-- The Ultimate iterative-deepening loop leaves the board as it found it. -/
theorem ult_depthLoop_board (oracle : Nat → Bool) (fuel : Nat) :
    ∀ ds it, (Ultimate.depthLoop oracle fuel ds it).st.board = it.st.board := by
  intro ds
  induction ds with
  | nil => intro it; rfl
  | cons d rest ih =>
    intro it
    rw [Ultimate.depthLoop]
    try dsimp only
    repeat' split
    all_goals try rfl
    all_goals rw [ih]; exact ult_rootLoop_board oracle fuel d _ _ _ _ _

/-- `UltimateEngine.choose_move` returns the borrowed board unchanged. -/
theorem ult_chooseMove_board (oracle : Nat → Bool) (fuel : Nat) (b : EBoard)
    (tt : TranspositionTable) :
    (Ultimate.chooseMove oracle fuel b tt).2.1 = b :=
  ult_depthLoop_board oracle fuel [1, 2, 3, 4, 5, 6, 7, 8]
    ⟨none, -10000000, 0, 0, 0, ⟨b, 0, 0, 0, tt.clear⟩⟩

/-- `Level1Engine.choose_move`'s move loop leaves the board as it found
it: each push is undone by the pop right after the score is read. -/
theorem l1_rootLoop_board :
    ∀ ms bm bs tn b, (Level1.rootLoop ms bm bs tn b).2 = b := by
  intro ms
  induction ms with
  | nil => intro bm bs tn b; rfl
  | cons m rest ih =>
    intro bm bs tn b
    rw [Level1.rootLoop]
    try dsimp only
    rw [push_pop]
    repeat' split
    all_goals exact ih _ _ _ _

/-- `Level1Engine.choose_move` returns the borrowed board unchanged. -/
theorem l1_chooseMove_board (b : EBoard) : (Level1.chooseMove b).2 = b := by
  rw [Level1.chooseMove]
  split
  · rfl
  · exact l1_rootLoop_board (legalMovesE b) none (-10000000) 0 b

/-- The Level2 minimax move loop leaves the board as it found it. -/
theorem l2_mmloop_board (rec : EBoard → (Int × Nat) × EBoard)
    (hrec : ∀ b, (rec b).2 = b) :
    ∀ ms b best n, (Level2.mmloop rec ms b best n).2 = b := by
  intro ms
  induction ms with
  | nil => intro b best n; rfl
  | cons m rest ih =>
    intro b best n
    rw [Level2.mmloop]
    try dsimp only
    rw [hrec, push_pop]
    exact ih _ _ _

/-- Level2 minimax leaves the board as it found it. -/
theorem l2_minimax_board (evalMat repPen : GTree → Int) :
    ∀ fuel b d, (Level2.minimax evalMat repPen fuel b d).2 = b := by
  intro fuel
  induction fuel with
  | zero => intro b d; rfl
  | succ k ih =>
    intro b d
    rw [Level2.minimax]
    split
    · rfl
    · exact l2_mmloop_board _ (fun b1 => ih b1 (d - 1)) _ _ _ _

/-- The Level2 root scoring loop leaves the board as it found it. -/
theorem l2_rootLoop_board (evalMat repPen : GTree → Int) (fuel depth : Nat) :
    ∀ ms scored tn b,
      (Level2.rootLoop evalMat repPen fuel depth ms scored tn b).2 = b := by
  intro ms
  induction ms with
  | nil => intro scored tn b; rfl
  | cons m rest ih =>
    intro scored tn b
    rw [Level2.rootLoop]
    try dsimp only
    rw [l2_minimax_board, push_pop]
    exact ih _ _ _

/-- `Level2Engine.choose_move` returns the borrowed board unchanged. -/
theorem l2_chooseMove_board (evalMat repPen : GTree → Int) (rng : Nat → Nat)
    (fuel : Nat) (b : EBoard) :
    (Level2.chooseMove evalMat repPen rng fuel b).2 = b := by
  have h := l2_rootLoop_board evalMat repPen fuel 2 (legalMovesE b) [] 0 b
  rw [Level2.chooseMove]
  try dsimp only
  split
  · exact h
  · exact h

/-- `MCTSEngine.choose_move` returns the borrowed board unchanged: every
branch — the game-over early return, a propagated simulation exception,
the empty-root fallback and the normal result — hands back `b` itself; the
whole search runs on a stack-free snapshot of the position. -/
theorem mcts_chooseMove_board (c : ℝ) (rd : Nat)
    (evalLeaf : GTree → TranspositionTable → Nat → Nat →
      Except Unit (ℚ × TranspositionTable × Nat × Nat))
    (oracle : Nat → Bool) (dfuel simFuel : Nat) (b : EBoard)
    (tt : TranspositionTable) :
    (MCTS.chooseMove c rd evalLeaf oracle dfuel simFuel b tt).2.1 = b := by
  rw [MCTS.chooseMove]
  try dsimp only
  repeat' split
  all_goals rfl

/-- The MCTS tier (`MCTSEngine.choose_move` with its defaults) returns the
borrowed board unchanged. -/
theorem mcts_engine_chooseMove_board (oracle : Nat → Bool) (rng : Nat → Nat)
    (dfuel simFuel : Nat) (b : EBoard) (tt : TranspositionTable) :
    (MCTS.engineChooseMove oracle rng dfuel simFuel b tt).2.1 = b :=
  mcts_chooseMove_board _ _ _ _ _ _ b tt

/-- The MCTS+CNN tier (`MCTSCNNEvalEngine.choose_move`) returns the
borrowed board unchanged — also when the leaf evaluator's uncaught
`NameError` propagates out of the simulation loop. -/
theorem mcts_cnn_chooseMove_board (model : Option Unit)
    (cnn : GTree → Except Unit ℚ) (oracle : Nat → Bool) (rng : Nat → Nat)
    (dfuel simFuel : Nat) (b : EBoard) (tt : TranspositionTable) :
    (MCTS.cnnChooseMove model cnn oracle rng dfuel simFuel b tt).2.1 = b :=
  mcts_chooseMove_board _ _ _ _ _ _ b tt

/-- C3: every engine tier of the registry — Level1, Level2, Level3, Level4,
Level5, Ultimate, MCTS and MCTS+CNN — returns from `choose_move` with the
borrowed board exactly as it received it: under any clock, fuel,
evaluator, draw stream and model state, the move-stack depth and the side
to move at return equal their values at entry (the whole board state is
returned unchanged), whether or not the search timed out or an exception
propagated.  The stack-based tiers pair every push with a pop on every
control path; the MCTS tiers search a stack-free snapshot and never touch
the borrowed board. -/
theorem choose_move_restores_board (oracle : Nat → Bool) (fuel : Nat)
    (b : EBoard) (tt : TranspositionTable) (evalMat repPen : GTree → Int)
    (rng : Nat → Nat) (model : Option Unit) (cnn : GTree → Except Unit ℚ)
    (dfuel simFuel : Nat) :
    ((Level1.chooseMove b).2.stack.length = b.stack.length ∧
      (Level1.chooseMove b).2.turn = b.turn) ∧
    ((Level2.chooseMove evalMat repPen rng fuel b).2.stack.length = b.stack.length ∧
      (Level2.chooseMove evalMat repPen rng fuel b).2.turn = b.turn) ∧
    ((Level3.chooseMove oracle fuel b).2.stack.length = b.stack.length ∧
      (Level3.chooseMove oracle fuel b).2.turn = b.turn) ∧
    ((Level4.chooseMove oracle fuel b tt).2.1.stack.length = b.stack.length ∧
      (Level4.chooseMove oracle fuel b tt).2.1.turn = b.turn) ∧
    ((Level5.chooseMove fuel b).2.stack.length = b.stack.length ∧
      (Level5.chooseMove fuel b).2.turn = b.turn) ∧
    ((Ultimate.chooseMove oracle fuel b tt).2.1.stack.length = b.stack.length ∧
      (Ultimate.chooseMove oracle fuel b tt).2.1.turn = b.turn) ∧
    ((MCTS.engineChooseMove oracle rng dfuel simFuel b tt).2.1.stack.length
        = b.stack.length ∧
      (MCTS.engineChooseMove oracle rng dfuel simFuel b tt).2.1.turn = b.turn) ∧
    ((MCTS.cnnChooseMove model cnn oracle rng dfuel simFuel b tt).2.1.stack.length
        = b.stack.length ∧
      (MCTS.cnnChooseMove model cnn oracle rng dfuel simFuel b tt).2.1.turn
        = b.turn) := by
  rw [l1_chooseMove_board, l2_chooseMove_board, l3_chooseMove_board,
    l4_chooseMove_board, l5_chooseMove_board, ult_chooseMove_board,
    mcts_engine_chooseMove_board, mcts_cnn_chooseMove_board]
  exact ⟨⟨rfl, rfl⟩, ⟨rfl, rfl⟩, ⟨rfl, rfl⟩, ⟨rfl, rfl⟩, ⟨rfl, rfl⟩,
    ⟨rfl, rfl⟩, ⟨rfl, rfl⟩, ⟨rfl, rfl⟩⟩

/-- Counterexample for C1 across the three iterative-deepening engines.
Level3 on `boardC1` under the monotone clock `oracleStep 6`: the limit
expires during the depth-2 iteration after root move `mvA` was searched
but before `mvB`, and `choose_move` returns `mvA` with score 7 at depth 2
— the partially searched iteration's result; under `oracleStep 3` the
limit expires before the depth-2 iteration starts and the last fully
completed iteration's result — `mvB`, score 10, depth 1 — comes back,
which is what the claim demands of the first run too.  Level4 and
Ultimate behave the same way on `boardC14` (the hash-distinct copy of the
same scenario, so no two positions collide in their transposition
tables). -/
theorem timeout_returns_unfinished_iteration :
    ((Level3.chooseMove (oracleStep 6) 10 boardC1).1.move = some mvA ∧
     (Level3.chooseMove (oracleStep 6) 10 boardC1).1.score = 7 ∧
     (Level3.chooseMove (oracleStep 6) 10 boardC1).1.depth = 2 ∧
     (Level3.chooseMove (oracleStep 3) 10 boardC1).1.move = some mvB ∧
     (Level3.chooseMove (oracleStep 3) 10 boardC1).1.score = 10 ∧
     (Level3.chooseMove (oracleStep 3) 10 boardC1).1.depth = 1 ∧
     ¬((Level3.chooseMove (oracleStep 6) 10 boardC1).1.move = some mvB ∧
       (Level3.chooseMove (oracleStep 6) 10 boardC1).1.score = 10)) ∧
    ((Level4.chooseMove (oracleStep 6) 10 boardC14 ttEmpty).1.move = some mvA ∧
     (Level4.chooseMove (oracleStep 6) 10 boardC14 ttEmpty).1.score = 7 ∧
     (Level4.chooseMove (oracleStep 6) 10 boardC14 ttEmpty).1.depth = 2 ∧
     (Level4.chooseMove (oracleStep 3) 10 boardC14 ttEmpty).1.move = some mvB ∧
     (Level4.chooseMove (oracleStep 3) 10 boardC14 ttEmpty).1.score = 10 ∧
     (Level4.chooseMove (oracleStep 3) 10 boardC14 ttEmpty).1.depth = 1 ∧
     ¬((Level4.chooseMove (oracleStep 6) 10 boardC14 ttEmpty).1.move = some mvB ∧
       (Level4.chooseMove (oracleStep 6) 10 boardC14 ttEmpty).1.score = 10)) ∧
    ((Ultimate.chooseMove (oracleStep 6) 10 boardC14 ttEmpty).1.move = some mvA ∧
     (Ultimate.chooseMove (oracleStep 6) 10 boardC14 ttEmpty).1.score = 7 ∧
     (Ultimate.chooseMove (oracleStep 6) 10 boardC14 ttEmpty).1.depth = 2 ∧
     (Ultimate.chooseMove (oracleStep 3) 10 boardC14 ttEmpty).1.move = some mvB ∧
     (Ultimate.chooseMove (oracleStep 3) 10 boardC14 ttEmpty).1.score = 10 ∧
     (Ultimate.chooseMove (oracleStep 3) 10 boardC14 ttEmpty).1.depth = 1 ∧
     ¬((Ultimate.chooseMove (oracleStep 6) 10 boardC14 ttEmpty).1.move = some mvB ∧
       (Ultimate.chooseMove (oracleStep 6) 10 boardC14 ttEmpty).1.score = 10)) := by
  refine ⟨⟨?_, ?_, ?_, ?_, ?_, ?_, ?_⟩, ⟨?_, ?_, ?_, ?_, ?_, ?_, ?_⟩,
    ⟨?_, ?_, ?_, ?_, ?_, ?_, ?_⟩⟩
  all_goals decide

/-- C1 (amended): in each of the three iterative-deepening engines —
Level3, Level4 and Ultimate — when the clock runs out during a depth-d
iteration, that iteration's running best (seeded with the previous
iteration's best move and the sentinel score -10000000, updated by each
root move it fully searched) is still committed whenever its move is
non-None, and the depth loop returns that commit: the returned move, score
and reached depth are those of the last committing — possibly partially
searched — iteration, not of the last fully completed one. -/
theorem expired_iteration_commit :
    (∀ (oracle : Nat → Bool) (fuel : Nat) (ordered : List GMove) (d : Nat)
      (rest : List Nat) (st : Level3.IterState) (m : GMove) (s : Int)
      (b' : EBoard) (t' n' : Nat),
      oracle st.tIdx = false →
      Level3.rootLoop oracle fuel d ordered (st.bestMove, -10000000)
        st.board (st.tIdx + 1) st.totalNodes = ((some m, s), b', t', n') →
      (∀ j, t' ≤ j → oracle j = true) →
      (Level3.depthLoop oracle fuel ordered (d :: rest) st).bestMove = some m ∧
      (Level3.depthLoop oracle fuel ordered (d :: rest) st).bestScore = s ∧
      (Level3.depthLoop oracle fuel ordered (d :: rest) st).searchedDepth = d) ∧
    (∀ (oracle : Nat → Bool) (fuel : Nat) (ordered : List GMove) (d : Nat)
      (rest : List Nat) (it : Level4.IterState) (m : GMove) (s : Int)
      (st' : Level4.SState) (n' : Nat),
      oracle it.st.tIdx = false →
      Level4.rootLoop oracle fuel d ordered (it.bestMove, -10000000)
        { it.st with tIdx := it.st.tIdx + 1 } it.totalNodes
        = ((some m, s), st', n') →
      (∀ j, st'.tIdx ≤ j → oracle j = true) →
      (Level4.depthLoop oracle fuel ordered (d :: rest) it).bestMove = some m ∧
      (Level4.depthLoop oracle fuel ordered (d :: rest) it).bestScore = s ∧
      (Level4.depthLoop oracle fuel ordered (d :: rest) it).searchedDepth = d) ∧
    (∀ (oracle : Nat → Bool) (fuel : Nat) (d : Nat) (rest : List Nat)
      (it : Ultimate.IterState) (m : GMove) (s : Int)
      (st' : Ultimate.UState) (n' q' : Nat),
      oracle it.st.tIdx = false →
      Ultimate.rootLoop oracle fuel d (orderMovesBase (legalMovesE it.st.board))
        (it.bestMove, -10000000) { it.st with tIdx := it.st.tIdx + 1 }
        it.totalNodes it.totalQnodes = ((some m, s), st', n', q') →
      (∀ j, st'.tIdx ≤ j → oracle j = true) →
      (Ultimate.depthLoop oracle fuel (d :: rest) it).bestMove = some m ∧
      (Ultimate.depthLoop oracle fuel (d :: rest) it).bestScore = s ∧
      (Ultimate.depthLoop oracle fuel (d :: rest) it).searchedDepth = d) := by
  refine ⟨?_, ?_, ?_⟩
  · intro oracle fuel ordered d rest st m s b' t' n' h0 h1 h2
    rw [Level3.depthLoop]
    simp only [h0, Bool.false_eq_true, if_false]
    rw [h1]
    cases rest with
    | nil => exact ⟨rfl, rfl, rfl⟩
    | cons d2 rest2 =>
      rw [Level3.depthLoop]
      rw [if_pos (h2 t' le_rfl)]
      exact ⟨rfl, rfl, rfl⟩
  · intro oracle fuel ordered d rest it m s st' n' h0 h1 h2
    rw [Level4.depthLoop]
    simp only [h0, Bool.false_eq_true, if_false]
    rw [h1]
    cases rest with
    | nil => exact ⟨rfl, rfl, rfl⟩
    | cons d2 rest2 =>
      rw [Level4.depthLoop]
      rw [if_pos (h2 st'.tIdx le_rfl)]
      exact ⟨rfl, rfl, rfl⟩
  · intro oracle fuel d rest it m s st' n' q' h0 h1 h2
    rw [Ultimate.depthLoop]
    simp only [h0, Bool.false_eq_true, if_false]
    rw [h1]
    cases rest with
    | nil => exact ⟨rfl, rfl, rfl⟩
    | cons d2 rest2 =>
      rw [Ultimate.depthLoop]
      rw [if_pos (h2 st'.tIdx le_rfl)]
      exact ⟨rfl, rfl, rfl⟩

/-- Witness for the amended C1 at the concrete scenarios.  Level3: from
the state left by a completed depth-1 iteration (best `mvB`, score 10),
the clock `oracleStep 6` expires during the depth-2 iteration after `mvA`
was searched, and the partial iteration's best `(mvA, 7)` is committed at
depth 2.  Level4 and Ultimate: from the initial state on `boardC14`, the
clock `oracleStep 2` expires during the very first (depth-1) iteration
after `mvA` was searched, and that unfinished iteration's best `(mvA, 5)`
is committed at depth 1. -/
theorem expired_iteration_commit_witness :
    ((Level3.depthLoop (oracleStep 6) 10 [mvA, mvB] [2, 3, 4]
        ⟨some mvB, 10, 1, 2, 3, boardC1⟩).bestMove = some mvA ∧
      (Level3.depthLoop (oracleStep 6) 10 [mvA, mvB] [2, 3, 4]
        ⟨some mvB, 10, 1, 2, 3, boardC1⟩).bestScore = 7 ∧
      (Level3.depthLoop (oracleStep 6) 10 [mvA, mvB] [2, 3, 4]
        ⟨some mvB, 10, 1, 2, 3, boardC1⟩).searchedDepth = 2) ∧
    ((Level4.depthLoop (oracleStep 2) 10 [mvA, mvB] [1, 2, 3, 4, 5, 6]
        ⟨none, -10000000, 0, 0, ⟨boardC14, 0, 0, ttEmpty⟩⟩).bestMove
          = some mvA ∧
      (Level4.depthLoop (oracleStep 2) 10 [mvA, mvB] [1, 2, 3, 4, 5, 6]
        ⟨none, -10000000, 0, 0, ⟨boardC14, 0, 0, ttEmpty⟩⟩).bestScore = 5 ∧
      (Level4.depthLoop (oracleStep 2) 10 [mvA, mvB] [1, 2, 3, 4, 5, 6]
        ⟨none, -10000000, 0, 0, ⟨boardC14, 0, 0, ttEmpty⟩⟩).searchedDepth
          = 1) ∧
    ((Ultimate.depthLoop (oracleStep 2) 10 [1, 2, 3, 4, 5, 6, 7, 8]
        ⟨none, -10000000, 0, 0, 0, ⟨boardC14, 0, 0, 0, ttEmpty⟩⟩).bestMove
          = some mvA ∧
      (Ultimate.depthLoop (oracleStep 2) 10 [1, 2, 3, 4, 5, 6, 7, 8]
        ⟨none, -10000000, 0, 0, 0, ⟨boardC14, 0, 0, 0, ttEmpty⟩⟩).bestScore
          = 5 ∧
      (Ultimate.depthLoop (oracleStep 2) 10 [1, 2, 3, 4, 5, 6, 7, 8]
        ⟨none, -10000000, 0, 0, 0, ⟨boardC14, 0, 0, 0, ttEmpty⟩⟩).searchedDepth
          = 1) := by
  refine ⟨?_, ?_, ?_⟩
  · exact expired_iteration_commit.1 (oracleStep 6) 10 [mvA, mvB] 2 [3, 4]
      ⟨some mvB, 10, 1, 2, 3, boardC1⟩ mvA 7 boardC1 7 4 (by decide) (by rfl)
      (fun j hj => by
        simp only [oracleStep, decide_eq_true_eq]
        omega)
  · exact expired_iteration_commit.2.1 (oracleStep 2) 10 [mvA, mvB] 1
      [2, 3, 4, 5, 6] ⟨none, -10000000, 0, 0, ⟨boardC14, 0, 0, ttEmpty⟩⟩
      mvA 5 _ _ (by decide) rfl
      (fun j hj => by
        have h3 : (3 : Nat) ≤ j := hj
        simp only [oracleStep, decide_eq_true_eq]
        omega)
  · exact expired_iteration_commit.2.2 (oracleStep 2) 10 1 [2, 3, 4, 5, 6, 7, 8]
      ⟨none, -10000000, 0, 0, 0, ⟨boardC14, 0, 0, 0, ttEmpty⟩⟩
      mvA 5 _ _ _ (by decide) rfl
      (fun j hj => by
        have h3 : (3 : Nat) ≤ j := hj
        simp only [oracleStep, decide_eq_true_eq]
        omega)

/-- C6 at the failing inputs: on a non-terminal, uncached leaf,
`MCTSCNNEvalEngine._evaluate_leaf` raises in every scenario the claim
covers — with the model absent, with a raising evaluator, and even with a
successfully evaluating one — because the re-caching store references the
unimported name `TTEntry` outside any `try`.  The `Except.error` is that
uncaught `NameError` escaping `_evaluate_leaf`. -/
theorem cnn_leaf_fallback_raises :
    MCTS.cnnEvaluateLeaf none cnnFail 10 (fun _ => false) (fun _ => 0)
        leafT6 ttEmpty 0 0 = Except.error () ∧
    MCTS.cnnEvaluateLeaf (some ()) cnnFail 10 (fun _ => false) (fun _ => 0)
        leafT6 ttEmpty 0 0 = Except.error () ∧
    MCTS.cnnEvaluateLeaf (some ()) (fun _ => Except.ok (1/2)) 10
        (fun _ => false) (fun _ => 0) leafT6 ttEmpty 0 0 = Except.error () := by
  refine ⟨rfl, rfl, rfl⟩

/-- The square root of the parent-plus-one visit count in the concrete
selection scenario. -/
theorem sqrt_parentN_visits : Real.sqrt ((parentN.visit_count : ℝ) + 1) = 2 := by
  have h : ((parentN.visit_count : ℝ) + 1) = 2 ^ 2 := by
    norm_num [parentN, MCTS.MCTSNodeE.visit_count]
  rw [h, Real.sqrt_sq (by norm_num : (0 : ℝ) ≤ 2)]

/-- On the concrete expanded parent, `select` returns the first child. -/
theorem select_parentN_eq : MCTS.select (7/5) parentN = some (mvA, childA) := by
  show MCTS.selectLoop (7/5) (Real.sqrt ((parentN.visit_count : ℝ) + 1))
    parentN.children none (-1000000000) = some (mvA, childA)
  rw [sqrt_parentN_visits]
  show MCTS.selectLoop (7/5) 2 [(mvA, childA), (mvB, childB)] none (-1000000000) =
    some (mvA, childA)
  rw [MCTS.selectLoop]
  rw [if_pos (by
    norm_num [MCTS.puctScore, MCTS.MCTSNodeE.value, childA,
      MCTS.MCTSNodeE.visit_count, MCTS.MCTSNodeE.value_sum, MCTS.MCTSNodeE.prior])]
  rw [MCTS.selectLoop]
  rw [if_neg (by
    norm_num [MCTS.puctScore, MCTS.MCTSNodeE.value, childA, childB,
      MCTS.MCTSNodeE.visit_count, MCTS.MCTSNodeE.value_sum, MCTS.MCTSNodeE.prior])]
  rw [MCTS.selectLoop]

/-- Counterexample for C7: on a reachable expanded node (parent visits 3,
uniform priors 1/2, children with visits 0 and 3), `select` returns the
first child, but the claim's formula — with `sqrt(parent.visit_count)`
instead of the code's `sqrt(parent.visit_count + 1)` — is strictly larger
at the second child, so the returned child does not maximize the claim's
quantity. -/
theorem select_not_claim_formula_maximizer :
    MCTS.select (7/5) parentN = some (mvA, childA) ∧
    claimPuctScore (7/5) parentN.visit_count childA <
      claimPuctScore (7/5) parentN.visit_count childB := by
  refine ⟨select_parentN_eq, ?_⟩
  have h3 : Real.sqrt 3 < 19/10 := by
    rw [Real.sqrt_lt' (by norm_num : (0:ℝ) < 19/10)]
    norm_num
  have h0 : (0:ℝ) ≤ Real.sqrt 3 := Real.sqrt_nonneg 3
  simp only [claimPuctScore, MCTS.MCTSNodeE.value, childA, childB, parentN,
    MCTS.MCTSNodeE.visit_count, MCTS.MCTSNodeE.value_sum, MCTS.MCTSNodeE.prior]
  norm_num
  nlinarith [h3, h0]

/-- The scan of `MCTSNode.select` keeps a running strict maximum: whatever
it returns scores at least the running best and at least every child of the
remaining list. -/
theorem selectLoop_le (c s : ℝ) :
    ∀ (l : List (GMove × MCTS.MCTSNodeE)) (best : Option (GMove × MCTS.MCTSNodeE))
      (bs : ℝ),
      (∀ m0 c0, best = some (m0, c0) → MCTS.puctScore c s c0 = bs) →
      ∀ mv child, MCTS.selectLoop c s l best bs = some (mv, child) →
        bs ≤ MCTS.puctScore c s child ∧
        ∀ p ∈ l, MCTS.puctScore c s p.2 ≤ MCTS.puctScore c s child := by
  intro l
  induction l with
  | nil =>
    intro best bs hb mv child hsel
    rw [MCTS.selectLoop] at hsel
    refine ⟨le_of_eq (hb mv child hsel).symm, ?_⟩
    intro p hp
    cases hp
  | cons q rest ih =>
    rcases q with ⟨m, ch⟩
    intro best bs hb mv child hsel
    rw [MCTS.selectLoop] at hsel
    try dsimp only at hsel
    by_cases hc : MCTS.puctScore c s ch > bs
    · rw [if_pos hc] at hsel
      have hres := ih (some (m, ch)) (MCTS.puctScore c s ch)
        (by rintro m0 c0 h0; cases h0; rfl) mv child hsel
      refine ⟨le_trans (le_of_lt hc) hres.1, ?_⟩
      intro p hp
      rcases List.mem_cons.mp hp with h | h
      · rw [h]
        exact hres.1
      · exact hres.2 p h
    · rw [if_neg hc] at hsel
      have hres := ih best bs hb mv child hsel
      refine ⟨hres.1, ?_⟩
      intro p hp
      rcases List.mem_cons.mp hp with h | h
      · rw [h]
        exact le_trans (not_lt.mp hc) hres.1
      · exact hres.2 p h

/-- C7 (amended): when `select` returns a child, that child maximizes the
code's PUCT quantity `value + c_puct * prior * sqrt(parent.visit_count + 1)
/ (1 + child.visit_count)` over all children (the square root is of the
visit count plus one, not of the visit count as the claim words it). -/
theorem select_maximizes_puct (c : ℝ) (n : MCTS.MCTSNodeE) (mv : GMove)
    (child : MCTS.MCTSNodeE) (h : MCTS.select c n = some (mv, child)) :
    ∀ p ∈ n.children,
      MCTS.puctScore c (Real.sqrt ((n.visit_count : ℝ) + 1)) p.2 ≤
        MCTS.puctScore c (Real.sqrt ((n.visit_count : ℝ) + 1)) child :=
  (selectLoop_le c (Real.sqrt ((n.visit_count : ℝ) + 1)) n.children none
    (-1000000000) (by rintro m0 c0 h0; cases h0) mv child h).2

/-- Witness for the amended C7 at the concrete parent: the returned first
child's code-formula score dominates the second child's. -/
theorem select_maximizes_puct_witness :
    MCTS.puctScore (7/5) (Real.sqrt ((parentN.visit_count : ℝ) + 1)) childB ≤
      MCTS.puctScore (7/5) (Real.sqrt ((parentN.visit_count : ℝ) + 1)) childA :=
  select_maximizes_puct (7/5) parentN mvA childA select_parentN_eq (mvB, childB)
    (by simp [parentN, MCTS.MCTSNodeE.children])
